import Mathlib

/-!
# Verification of the crytic-compile canonical model layer

A shallow embedding, in Lean, of the three sampled source files of
`crytic-compile` — `platform/standard.py` (the export/import engine),
`platform/dapp.py` and `platform/waffle.py` (two build-tool adapters) —
together with the parts of the data model (`CompilationUnit`, `Filename`,
`Natspec`, `CompilerVersion`, the session object) that those files use and
that the sample does not include; the latter are modelled from the
specification and marked as such.

Python dictionaries are association lists (`List (String × _)`) updated in
place, Python sets are duplicate-free lists, JSON values are the `Json`
inductive below, and a raised exception is an `Except` / `Option LoadErr`
value threaded together with the mutated state, so that state mutated
before a raise remains observable, exactly as it does through Python object
references.
-/

set_option autoImplicit false

namespace CryticCompile

/-! ## JSON values

The documents the engine reads and writes are parsed JSON.  `num` carries an
`Int`; none of the verified code inspects numeric values beyond the integer
platform tag. -/

inductive Json where
  | null
  | bool (b : Bool)
  | num (n : Int)
  | str (s : String)
  | arr (xs : List Json)
  | obj (fields : List (String × Json))

/-- Errors raised by the verified code paths.  `keyError k` models a Python
`KeyError` on key `k` (also a `TypeError`-like failure when a non-object is
indexed, which aborts identically); `typeError` models an
`AttributeError`/`TypeError`; `valueError` models the `ValueError` raised by
an enum conversion; `indexError` a sequence index out of range. -/
inductive LoadErr where
  | keyError (k : String)
  | typeError (k : String)
  | valueError
  | indexError
  deriving DecidableEq

/-- Key lookup in a JSON object, `none` when the key is absent or the value
is not an object (models Python `d.get(k)` / `k in d`). -/
def Json.lookup : Json → String → Option Json
  | .obj fields, k => fields.lookup k
  | _, _ => none

/-- Python `d[k]`: the value, or a raised `KeyError` naming the key. -/
def Json.getVal (j : Json) (k : String) : Except LoadErr Json :=
  match j.lookup k with
  | some v => .ok v
  | none => .error (.keyError k)

/-- `d[k]` where the surrounding code requires the value to be a string
(the data model types these fields as strings; a non-string here would make
the subsequent `.split` / set insertion of the Python code misbehave). -/
def Json.getStr (j : Json) (k : String) : Except LoadErr String :=
  match j.lookup k with
  | some (.str s) => .ok s
  | some _ => .error (.typeError k)
  | none => .error (.keyError k)

/-- Python `d[k].items()`: the field list of the object stored at `k`. -/
def Json.getFields (j : Json) (k : String) : Except LoadErr (List (String × Json)) :=
  match j.lookup k with
  | some (.obj fields) => .ok fields
  | some _ => .error (.typeError k)
  | none => .error (.keyError k)

/-- Python truthiness of a JSON value. -/
def Json.truthy : Json → Bool
  | .null => false
  | .bool b => b
  | .num n => n != 0
  | .str s => s != ""
  | .arr xs => !xs.isEmpty
  | .obj fields => !fields.isEmpty

/-! ## Python string `split` / `join`

Modelled structurally over the character list of a `String`, so that every
concrete evaluation reduces inside the kernel.  `splitChar sep l` is Python
`s.split(sep)` for a one-character separator: it always returns a non-empty
list, and returns `[""]`-like `[[]]` on the empty string, exactly as Python
does. -/

def splitChar (sep : Char) : List Char → List (List Char)
  | [] => [[]]
  | c :: cs =>
    match splitChar sep cs with
    | [] => []
    | h :: t => if c = sep then [] :: h :: t else (c :: h) :: t

def joinChar (sep : Char) : List (List Char) → List Char
  | [] => []
  | [x] => x
  | x :: xs => x ++ sep :: joinChar sep xs

theorem splitChar_ne_nil (sep : Char) (l : List Char) : splitChar sep l ≠ [] := by
  induction l with
  | nil => simp [splitChar]
  | cons c cs ih =>
    simp only [splitChar]
    cases h : splitChar sep cs with
    | nil => exact absurd h ih
    | cons hd t => by_cases hc : c = sep <;> simp [hc]

/-- No produced segment contains the separator. -/
theorem splitChar_no_sep (sep : Char) (l : List Char) :
    ∀ seg ∈ splitChar sep l, sep ∉ seg := by
  induction l with
  | nil =>
    intro seg hseg
    simp only [splitChar, List.mem_singleton] at hseg
    subst hseg; simp
  | cons c cs ih =>
    intro seg hseg
    cases h : splitChar sep cs with
    | nil => exact absurd h (splitChar_ne_nil sep cs)
    | cons hd t =>
      simp only [splitChar, h] at hseg
      have ih' : ∀ seg ∈ hd :: t, sep ∉ seg := h ▸ ih
      by_cases hc : c = sep
      · rw [if_pos hc] at hseg
        rcases List.mem_cons.mp hseg with rfl | hseg
        · simp
        · exact ih' seg hseg
      · rw [if_neg hc] at hseg
        rcases List.mem_cons.mp hseg with rfl | hseg
        · intro hmem
          rcases List.mem_cons.mp hmem with h1 | h1
          · exact hc h1.symm
          · exact ih' hd (List.mem_cons_self _ _) h1
        · exact ih' seg (List.mem_cons_of_mem _ hseg)

/-- Joining the segments of a split restores the original list. -/
theorem joinChar_splitChar (sep : Char) (l : List Char) :
    joinChar sep (splitChar sep l) = l := by
  induction l with
  | nil => simp [splitChar, joinChar]
  | cons c cs ih =>
    simp only [splitChar]
    cases h : splitChar sep cs with
    | nil => exact absurd h (splitChar_ne_nil sep cs)
    | cons hd t =>
      rw [h] at ih
      by_cases hc : c = sep
      · subst hc
        simpa [joinChar] using ih
      · simp only [if_neg hc]
        cases t with
        | nil => simpa [joinChar] using ih
        | cons t0 ts => simpa [joinChar] using ih

/-- A separator-free list splits into itself alone. -/
theorem splitChar_of_not_mem (sep : Char) (x : List Char) (hx : sep ∉ x) :
    splitChar sep x = [x] := by
  induction x with
  | nil => rfl
  | cons c cs ih =>
    have hc : c ≠ sep := fun h => hx (h ▸ List.mem_cons_self _ _)
    have hcs : sep ∉ cs := fun h => hx (List.mem_cons_of_mem _ h)
    simp only [splitChar, ih hcs, if_neg hc]

theorem splitChar_append_sep (sep : Char) (x r : List Char) (hx : sep ∉ x) :
    splitChar sep (x ++ sep :: r) = x :: splitChar sep r := by
  induction x with
  | nil =>
    cases h : splitChar sep r with
    | nil => exact absurd h (splitChar_ne_nil sep r)
    | cons hd t => simp [splitChar, h]
  | cons c cs ih =>
    have hc : c ≠ sep := fun h => hx (h ▸ List.mem_cons_self _ _)
    have hcs : sep ∉ cs := fun h => hx (List.mem_cons_of_mem _ h)
    simp only [List.cons_append, splitChar, List.append_eq, ih hcs, if_neg hc]

/-- Splitting a join restores the segments, provided no segment contains the
separator and the segment list is non-empty — both of which hold of every
list produced by `splitChar`. -/
theorem splitChar_joinChar (sep : Char) (L : List (List Char)) (hne : L ≠ [])
    (hsep : ∀ seg ∈ L, sep ∉ seg) : splitChar sep (joinChar sep L) = L := by
  induction L with
  | nil => exact absurd rfl hne
  | cons x xs ih =>
    cases xs with
    | nil => exact splitChar_of_not_mem sep x (hsep x (List.mem_cons_self _ _))
    | cons y ys =>
      have hx : sep ∉ x := hsep x (List.mem_cons_self _ _)
      have hrest : ∀ seg ∈ y :: ys, sep ∉ seg :=
        fun seg hseg => hsep seg (List.mem_cons_of_mem _ hseg)
      have ihr := ih (by simp) hrest
      show splitChar sep (x ++ sep :: joinChar sep (y :: ys)) = x :: y :: ys
      rw [splitChar_append_sep sep _ _ hx, ihr]

/-- Splitting is idempotent through a join: `split(join(split(s))) = split(s)`. -/
theorem splitChar_joinChar_splitChar (sep : Char) (l : List Char) :
    splitChar sep (joinChar sep (splitChar sep l)) = splitChar sep l :=
  splitChar_joinChar sep _ (splitChar_ne_nil sep l) (splitChar_no_sep sep l)

/-- Python `s.split(";")`. -/
def pySplitSemi (s : String) : List String :=
  (splitChar ';' s.data).map (fun l => ⟨l⟩)

/-- Python `";".join(l)`. -/
def pyJoinSemi (l : List String) : String :=
  ⟨joinChar ';' (l.map String.data)⟩

theorem pySplitSemi_pyJoinSemi (s : String) :
    pySplitSemi (pyJoinSemi (pySplitSemi s)) = pySplitSemi s := by
  unfold pySplitSemi pyJoinSemi
  have hmap : (splitChar ';' s.data).map ((fun l => (⟨l⟩ : String)) · |>.data)
      = splitChar ';' s.data := by
    simp [List.map_map, Function.comp]
  simp only [List.map_map]
  rw [show ((fun l => (⟨l⟩ : String)) · |>.data) = (String.data ∘ fun l => (⟨l⟩ : String)) from rfl] at hmap
  rw [hmap, splitChar_joinChar_splitChar]

/-- Python `s.split(":")`. -/
def pySplitColon (s : String) : List String :=
  (splitChar ':' s.data).map (fun l => ⟨l⟩)

/-- The components of a path, Python `pathlib.Path(s).parts` up to the empty
components that `Path` normalizes away (membership tests of the verified
code only ever probe non-empty component names, for which the two agree). -/
def pathParts (s : String) : List String :=
  ((splitChar '/' s.data).map (fun l => (⟨l⟩ : String))).filter (fun p => p ≠ "")

/-- Does string `s` start with `p` (over character lists, kernel-reducible). -/
def strStartsWith (s p : String) : Bool :=
  p.data.isPrefixOf s.data

/-! ## Association lists and duplicate-free lists

Python dictionaries and sets as used by the session objects.  Assignment
`d[k] = v` replaces an existing binding in place (keeping its position, as
Python dictionaries do) or appends a new one; `set.add` appends when the
element is new. -/

def lookupA {α : Type} (m : List (String × α)) (k : String) : Option α :=
  match m with
  | [] => none
  | (k', v) :: rest => if k' = k then some v else lookupA rest k

def insertA {α : Type} (m : List (String × α)) (k : String) (v : α) :
    List (String × α) :=
  match m with
  | [] => [(k, v)]
  | (k', v') :: rest =>
    if k' = k then (k', v) :: rest else (k', v') :: insertA rest k v

def addSet {α : Type} [DecidableEq α] (s : List α) (x : α) : List α :=
  if x ∈ s then s else s ++ [x]

def addAllSet {α : Type} [DecidableEq α] (s : List α) (xs : List α) : List α :=
  xs.foldl addSet s

/-! ## Data model

`Filename`, `Natspec`, `CompilerVersion` and `CompilationUnit` live in
modules outside the sampled files (`utils/naming.py`, `utils/natspec.py`,
`compiler/compiler.py`, `compilation_unit.py`); their shapes are modelled
from the spec (§3), which types the four `Filename` views as path strings,
`Natspec` as two opaque buckets exported verbatim, and `CompilerVersion` as
the triple stored and re-read verbatim by the engine. -/

/-- Modelled from the spec: the four-view path identity (§3); the
`Filename` class of `utils/naming.py` is not in the sample. -/
structure Filename where
  absolute : String
  relative : String
  short : String
  used : String
  deriving DecidableEq

/-- What a `contracts_filenames` slot actually holds at runtime: the import
engine and the Waffle adapter store a `Filename` object, but the Dapp
adapter (dapp.py line 84) stores the raw reported path string.  The sum
keeps both behaviours representable. -/
inductive FilenameV where
  | fn (f : Filename)
  | raw (s : String)
  deriving DecidableEq

/-- Modelled from the spec: two opaque documentation buckets, exported and
imported verbatim (§3); the `Natspec` class of `utils/natspec.py` is not in
the sample.  Its `export` accessors return the stored buckets unchanged. -/
structure Natspec where
  userdoc : Json
  devdoc : Json

/-- The triple attached to a compilation unit.  Fields hold the values the
constructing code passes, verbatim (`compiler/compiler.py` is not in the
sample; the spec, §3, records it as a value triple stored once). -/
structure CompilerVersion where
  compiler : Json
  version : Json
  optimized : Json

/-- Modelled from the spec: the canonical aggregate (§3).  The class itself
(`compilation_unit.py`) is not in the sample; its fields are exactly the
mappings that the sampled adapters and the import/export engine read and
write, and its constructor registers the new (empty) unit into the owning
session's `compilation_units` mapping — visible in the sample because
`load_from_compile` (standard.py line 278) iterates units it never
explicitly inserted. -/
structure CompilationUnit where
  contracts_names : List String
  contracts_filenames : List (String × FilenameV)
  abis : List (String × Json)
  bytecodes_init : List (String × Json)
  bytecodes_runtime : List (String × Json)
  srcmaps_init : List (String × List String)
  srcmaps_runtime : List (String × List String)
  libraries : List (String × Json)
  natspec : List (String × Natspec)
  asts : Json
  compiler_version : Option CompilerVersion

def CompilationUnit.empty : CompilationUnit :=
  ⟨[], [], [], [], [], [], [], [], [], Json.obj [], none⟩

/-- Modelled from the spec: the session-level state (§3, "Session-level
state"); the `CryticCompile` class is not in the sample.  `platform_is_dep`
is the owning platform's dependency predicate and `platform_type` /
`guessed_tests` the values `generate_standard_export` reads from
`crytic_compile.platform`. -/
structure Session where
  compilation_units : List (String × CompilationUnit)
  filenames : List FilenameV
  dependencies : List String
  package_name : Option Json
  working_dir : Json
  platform_is_dep : String → Bool
  platform_type : Int
  guessed_tests : List String

/-- Modelled from the spec: `CryticCompile.is_dependency` (not in the
sample) asks the platform's predicate and the session's dependency set
(§4.3: "computed by asking the session whether the contract's absolute
filename is a known dependency"; §4.5: for re-loaded artifacts membership
is driven by the `dependencies` set). -/
def Session.is_dependency (s : Session) (path : String) : Bool :=
  s.platform_is_dep path || path ∈ s.dependencies

/-! ## platform/standard.py — import engine

`_load_from_compile_legacy` (lines 190–223) and the current-schema branch of
`load_from_compile` (lines 240–275) are embedded as pure functions from the
unit's JSON to the populated unit, the dependency-set additions made while
populating it (in operation order), and the first raised error; none of the
per-unit work reads session state, so this factoring is faithful, and the
partially populated unit is returned even on error, matching the in-place
mutation of the registered Python object. -/

/-- One iteration of the per-contract loop, lines 198–223 of the legacy
path.  Mutation order follows the source: name added first, then the
`Filename` is built (each view read raises `KeyError` if absent), then each
mapping is populated, `userdoc`/`devdoc` defaulting to `{}`, and finally the
truthiness of `is_dependency` decides the four dependency-set additions. -/
def load_contract_legacy (u : CompilationUnit) (contract_name : String)
    (contract : Json) : CompilationUnit × List String × Option LoadErr :=
  let u := { u with contracts_names := addSet u.contracts_names contract_name }
  match contract.getVal "filenames" with
  | .error e => (u, [], some e)
  | .ok fns =>
    match fns.getStr "absolute" with
    | .error e => (u, [], some e)
    | .ok a =>
      match fns.getStr "relative" with
      | .error e => (u, [], some e)
      | .ok r =>
        match fns.getStr "short" with
        | .error e => (u, [], some e)
        | .ok sh =>
          match fns.getStr "used" with
          | .error e => (u, [], some e)
          | .ok us =>
            let filename : Filename := ⟨a, r, sh, us⟩
            let u := { u with
              contracts_filenames := insertA u.contracts_filenames contract_name (.fn filename) }
            match contract.getVal "abi" with
            | .error e => (u, [], some e)
            | .ok abi =>
              let u := { u with abis := insertA u.abis contract_name abi }
              match contract.getVal "bin" with
              | .error e => (u, [], some e)
              | .ok bin =>
                let u := { u with
                  bytecodes_init := insertA u.bytecodes_init contract_name bin }
                match contract.getVal "bin-runtime" with
                | .error e => (u, [], some e)
                | .ok binr =>
                  let u := { u with
                    bytecodes_runtime := insertA u.bytecodes_runtime contract_name binr }
                  match contract.getStr "srcmap" with
                  | .error e => (u, [], some e)
                  | .ok sm =>
                    let u := { u with
                      srcmaps_init := insertA u.srcmaps_init contract_name (pySplitSemi sm) }
                    match contract.getStr "srcmap-runtime" with
                    | .error e => (u, [], some e)
                    | .ok smr =>
                      let u := { u with
                        srcmaps_runtime := insertA u.srcmaps_runtime contract_name (pySplitSemi smr) }
                      match contract.getVal "libraries" with
                      | .error e => (u, [], some e)
                      | .ok libs =>
                        let u := { u with
                          libraries := insertA u.libraries contract_name libs }
                        let userdoc := (contract.lookup "userdoc").getD (Json.obj [])
                        let devdoc := (contract.lookup "devdoc").getD (Json.obj [])
                        let u := { u with
                          natspec := insertA u.natspec contract_name ⟨userdoc, devdoc⟩ }
                        match contract.getVal "is_dependency" with
                        | .error e => (u, [], some e)
                        | .ok dep =>
                          if dep.truthy then (u, [a, r, sh, us], none)
                          else (u, [], none)

/-- One iteration of the per-contract loop of the current-schema path,
lines 247–274; the body is the same as the legacy one. -/
def load_contract_std (u : CompilationUnit) (contract_name : String)
    (contract : Json) : CompilationUnit × List String × Option LoadErr :=
  load_contract_legacy u contract_name contract

def load_contracts_fold
    (step : CompilationUnit → String → Json → CompilationUnit × List String × Option LoadErr)
    (u : CompilationUnit) :
    List (String × Json) → CompilationUnit × List String × Option LoadErr
  | [] => (u, [], none)
  | (name, contract) :: rest =>
    match step u name contract with
    | (u', deps, some e) => (u', deps, some e)
    | (u', deps, none) =>
      match load_contracts_fold step u' rest with
      | (u'', deps', e) => (u'', deps ++ deps', e)

/-- `_load_from_compile_legacy`, lines 190–223: `asts` first, then the
compiler triple, then the contracts loop. -/
def load_from_compile_legacy (loaded_json : Json) :
    CompilationUnit × List String × Option LoadErr :=
  match loaded_json.getVal "asts" with
  | .error e => (CompilationUnit.empty, [], some e)
  | .ok asts =>
    let u := { CompilationUnit.empty with asts := asts }
    match loaded_json.getVal "compiler" with
    | .error e => (u, [], some e)
    | .ok comp =>
      match comp.getVal "compiler" with
      | .error e => (u, [], some e)
      | .ok c =>
        match comp.getVal "version" with
        | .error e => (u, [], some e)
        | .ok v =>
          match comp.getVal "optimized" with
          | .error e => (u, [], some e)
          | .ok o =>
            let u := { u with compiler_version := some ⟨c, v, o⟩ }
            match loaded_json.getFields "contracts" with
            | .error e => (u, [], some e)
            | .ok entries => load_contracts_fold load_contract_legacy u entries

/-- The per-unit body of the current-schema branch, lines 241–275: the
compiler triple, then the contracts loop, then `asts` (read last). -/
def load_unit_json (compilation_unit_json : Json) :
    CompilationUnit × List String × Option LoadErr :=
  match compilation_unit_json.getVal "compiler" with
  | .error e => (CompilationUnit.empty, [], some e)
  | .ok comp =>
    match comp.getVal "compiler" with
    | .error e => (CompilationUnit.empty, [], some e)
    | .ok c =>
      match comp.getVal "version" with
      | .error e => (CompilationUnit.empty, [], some e)
      | .ok v =>
        match comp.getVal "optimized" with
        | .error e => (CompilationUnit.empty, [], some e)
        | .ok o =>
          let u := { CompilationUnit.empty with compiler_version := some ⟨c, v, o⟩ }
          match compilation_unit_json.getFields "contracts" with
          | .error e => (u, [], some e)
          | .ok entries =>
            match load_contracts_fold load_contract_std u entries with
            | (u', deps, some e) => (u', deps, some e)
            | (u', deps, none) =>
              match compilation_unit_json.getVal "asts" with
              | .error e => (u', deps, some e)
              | .ok asts => ({ u' with asts := asts }, deps, none)

/-- The loop over `loaded_json["compilation_units"]`, lines 240–275: each
unit is registered into the session at construction and its dependency-set
additions applied; an error stops the loop with the partial state kept. -/
def load_units_fold (s : Session) :
    List (String × Json) → Session × Option LoadErr
  | [] => (s, none)
  | (key, cu_json) :: rest =>
    let (u, deps, e) := load_unit_json cu_json
    let s := { s with
      compilation_units := insertA s.compilation_units key u,
      dependencies := addAllSet s.dependencies deps }
    match e with
    | some e => (s, some e)
    | none => load_units_fold s rest

/-- Lines 278–279: the session filename set is extended with every unit's
`contracts_filenames` values. -/
def rebuild_filenames (s : Session) : List FilenameV :=
  s.compilation_units.foldl
    (fun acc kv => addAllSet acc (kv.2.contracts_filenames.map (·.2)))
    s.filenames

/-- `load_from_compile`, lines 226–283.  Returns the session as mutated so
far together with either the raised error or the pair
`(loaded_json["type"], loaded_json.get("unit_tests", []))`. -/
def load_from_compile (s : Session) (loaded_json : Json) :
    Session × Except LoadErr (Json × Json) :=
  let s := { s with package_name := loaded_json.lookup "package" }
  let branch : Session × Option LoadErr :=
    match loaded_json.lookup "compilation_units" with
    | none =>
      let (u, deps, e) := load_from_compile_legacy loaded_json
      ({ s with
          compilation_units := insertA s.compilation_units "legacy" u,
          dependencies := addAllSet s.dependencies deps }, e)
    | some cus =>
      match cus with
      | .obj entries => load_units_fold s entries
      | _ => (s, some (.typeError "compilation_units"))
  match branch with
  | (s, some e) => (s, .error e)
  | (s, none) =>
    let s := { s with filenames := rebuild_filenames s }
    match loaded_json.getVal "working_dir" with
    | .error e => (s, .error e)
    | .ok wd =>
      let s := { s with working_dir := wd }
      match loaded_json.getVal "type" with
      | .error e => (s, .error e)
      | .ok t => (s, .ok (t, (loaded_json.lookup "unit_tests").getD (Json.arr [])))

/-! ## platform/standard.py — export engine

`generate_standard_export`, lines 133–187.  The per-contract accessors it
calls (`filename_of_contract`, `abi`, `bytecode_init`, …) live in the
`CompilationUnit` class outside the sample; per the spec's data model they
are reads of the per-contract mappings, raising on an absent contract.
`libraries_names_and_patterns` is likewise modelled from the spec (§3/§4.3:
the per-contract library mapping, "empty if none") as the stored value.
Reading `.absolute` on a slot holding a raw string (the Dapp adapter's
storage) raises, as the Python attribute access would. -/

/-- Python `str(x)` for the string-valued fields it is applied to. -/
def pyStr : Json → String
  | .str s => s
  | _ => ""

def export_contract (crytic_compile : Session) (u : CompilationUnit)
    (contract_name : String) : Except LoadErr Json :=
  match lookupA u.contracts_filenames contract_name with
  | none => .error (.keyError contract_name)
  | some (.raw _) => .error (.typeError "filenames")
  | some (.fn filename) =>
    match lookupA u.abis contract_name with
    | none => .error (.keyError contract_name)
    | some abi =>
      match lookupA u.bytecodes_init contract_name with
      | none => .error (.keyError contract_name)
      | some bin =>
        match lookupA u.bytecodes_runtime contract_name with
        | none => .error (.keyError contract_name)
        | some binr =>
          match lookupA u.srcmaps_init contract_name with
          | none => .error (.keyError contract_name)
          | some smi =>
            match lookupA u.srcmaps_runtime contract_name with
            | none => .error (.keyError contract_name)
            | some smr =>
              match lookupA u.natspec contract_name with
              | none => .error (.keyError contract_name)
              | some ns =>
                let libraries := (lookupA u.libraries contract_name).getD (Json.obj [])
                .ok (Json.obj
                  [("abi", abi),
                   ("bin", bin),
                   ("bin-runtime", binr),
                   ("srcmap", .str (pyJoinSemi smi)),
                   ("srcmap-runtime", .str (pyJoinSemi smr)),
                   ("filenames", Json.obj
                     [("absolute", .str filename.absolute),
                      ("used", .str filename.used),
                      ("short", .str filename.short),
                      ("relative", .str filename.relative)]),
                   ("libraries", if libraries.truthy then libraries else Json.obj []),
                   ("is_dependency",
                     .bool (crytic_compile.is_dependency filename.absolute)),
                   ("userdoc", ns.userdoc),
                   ("devdoc", ns.devdoc)])

def export_contracts_fold (crytic_compile : Session) (u : CompilationUnit) :
    List String → Except LoadErr (List (String × Json))
  | [] => .ok []
  | name :: rest =>
    match export_contract crytic_compile u name with
    | .error e => .error e
    | .ok c =>
      match export_contracts_fold crytic_compile u rest with
      | .error e => .error e
      | .ok cs => .ok ((name, c) :: cs)

/-- Lines 140–178: one entry of the exported `compilation_units` mapping. -/
def export_unit (crytic_compile : Session) (u : CompilationUnit) :
    Except LoadErr Json :=
  match export_contracts_fold crytic_compile u u.contracts_names with
  | .error e => .error e
  | .ok contracts =>
    let compiler : Json :=
      match u.compiler_version with
      | some cv => Json.obj
          [("compiler", cv.compiler),
           ("version", cv.version),
           ("optimized", cv.optimized)]
      | none => Json.obj []
    .ok (Json.obj
      [("compiler", compiler),
       ("asts", u.asts),
       ("contracts", Json.obj contracts)])

def export_units_fold (crytic_compile : Session) :
    List (String × CompilationUnit) → Except LoadErr (List (String × Json))
  | [] => .ok []
  | (key, u) :: rest =>
    match export_unit crytic_compile u with
    | .error e => .error e
    | .ok uj =>
      match export_units_fold crytic_compile rest with
      | .error e => .error e
      | .ok rest' => .ok ((key, uj) :: rest')

/-- `generate_standard_export`, lines 133–187. -/
def generate_standard_export (crytic_compile : Session) : Except LoadErr Json :=
  match export_units_fold crytic_compile crytic_compile.compilation_units with
  | .error e => .error e
  | .ok compilation_units =>
    .ok (Json.obj
      [("compilation_units", Json.obj compilation_units),
       ("package", crytic_compile.package_name.getD Json.null),
       ("working_dir", .str (pyStr crytic_compile.working_dir)),
       ("type", .num crytic_compile.platform_type),
       ("unit_tests", Json.arr (crytic_compile.guessed_tests.map Json.str))])

/-! ## Platform registry and the Standard platform

`Standard.compile` (lines 83–90) re-resolves the platform-type tag found in
the artifact: the integer is converted to the `PlatformType` enumeration
(`PlatformType(underlying_type)`, which raises `ValueError` for an integer
that is no member) and then looked up among the registered platform classes,
defaulting to `Standard` when none matches.  The enumeration and
`get_platforms` live outside the sample (`platform/types.py`,
`crytic_compile.py`) and are modelled from the spec: the registry holds the
sampled adapters (Dapp, Waffle), and the enumeration additionally has
members (such as `SOLC` and `STANDARD`) with no adapter in the registry. -/

/-- Modelled from the spec: the platform-type enumeration of
`platform/types.py` (not in the sample); tags are small integers. -/
inductive PlatformType where
  | NOT_SELECTED
  | SOLC
  | DAPP
  | WAFFLE
  | STANDARD
  deriving DecidableEq

def PlatformType.toInt : PlatformType → Int
  | .NOT_SELECTED => 0
  | .SOLC => 1
  | .DAPP => 5
  | .WAFFLE => 9
  | .STANDARD => 30

/-- Python `PlatformType(n)`: the member with value `n`, or a raised
`ValueError`. -/
def PlatformType.ofInt (n : Int) : Except LoadErr PlatformType :=
  if n = 0 then .ok .NOT_SELECTED
  else if n = 1 then .ok .SOLC
  else if n = 5 then .ok .DAPP
  else if n = 9 then .ok .WAFFLE
  else if n = 30 then .ok .STANDARD
  else .error .valueError

/-- What the loader needs of a platform class: its tag and its two
behavioural hooks (§4.5). -/
structure PlatformDescr where
  name : String
  project_url : String
  ptype : PlatformType
  is_dep : String → Bool
  tests : List String

/-- `Standard.is_dependency`, lines 107–115: always `False`. -/
def standard_is_dependency (_path : String) : Bool :=
  false

def standardDescr : PlatformDescr :=
  ⟨"Standard", "https://github.com/crytic/crytic-compile", .STANDARD,
   standard_is_dependency, []⟩

/-! ## Short-path rules

`_relative_to_short` of dapp.py (lines 208–223) and waffle.py (lines
325–334).  Paths are modelled as their component lists
(`pathlib.Path.parts`); `Path.relative_to(root)` for the single-component
roots used here succeeds exactly when the first component equals the root,
and drops it. -/

/-- `Path(p).relative_to(Path(root))` for a single-component `root`:
`some` of the remainder, or `none` for the raised `ValueError`. -/
def stripRoot (root : String) (p : List String) : Option (List String) :=
  match p with
  | [] => none
  | r :: rest => if r = root then some rest else none

/-- dapp.py `_relative_to_short`: try `src`, then `lib`, else unchanged. -/
def dapp_relative_to_short (relative : List String) : List String :=
  match stripRoot "src" relative with
  | some short => short
  | none =>
    match stripRoot "lib" relative with
    | some short => short
    | none => relative

/-- waffle.py `_relative_to_short`: try `contracts`, then `node_modules`,
else unchanged. -/
def waffle_relative_to_short (relative : List String) : List String :=
  match stripRoot "contracts" relative with
  | some short => short
  | none =>
    match stripRoot "node_modules" relative with
    | some short => short
    | none => relative

/-! ## Path identity resolution -/

/-- Rebuild a path string from components. -/
def joinPath (l : List String) : String :=
  ⟨joinChar '/' (l.map String.data)⟩

/-- Drop the first `pre.length` characters (used after a prefix check). -/
def strDropLen (pre s : String) : String :=
  ⟨s.data.drop pre.data.length⟩

/-- Modelled from the spec: `convert_filename` of `utils/naming.py` (not in
the sample), per §4.1 — `absolute` resolves the raw path against the
working directory, `relative` is `absolute` made relative to it, `short`
applies the adapter's rule to the components of `relative`, `used` is the
raw string verbatim. -/
def convert_filename (raw : String) (rule : List String → List String)
    (working_dir : String) : Filename :=
  let absolute := if strStartsWith raw "/" then raw else working_dir ++ "/" ++ raw
  let relative :=
    if strStartsWith raw "/" then
      if strStartsWith raw (working_dir ++ "/") then
        strDropLen (working_dir ++ "/") raw
      else raw
    else raw
  ⟨absolute, relative, joinPath (rule (pathParts relative)), raw⟩

/-! ## platform/waffle.py -/

/-- `Waffle.is_dependency`, lines 245–256: `node_modules` among the path's
components.  The method memoizes the value it returns, so it is
observationally this pure predicate. -/
def waffle_is_dependency (path : String) : Bool :=
  "node_modules" ∈ pathParts path

def waffleDescr : PlatformDescr :=
  ⟨"Waffle", "https://github.com/EthWorks/Waffle", .WAFFLE,
   waffle_is_dependency, ["npx mocha"]⟩

/-- Python `d[k] = v` on a unit's `asts` dictionary. -/
def objInsert (j : Json) (k : String) (v : Json) : Json :=
  match j with
  | .obj fields => .obj (insertA fields k v)
  | j => j

/-- One iteration of the `Waffle.compile` contracts loop, lines 177–208.
The key is split on `:` into source file and contract name; the `AST`,
`abi`, documentation buckets, bytecodes and source maps are read in source
order, the source maps split on `;`. -/
def waffle_contract_step (s : Session) (u : CompilationUnit) (target : String)
    (target_all : Json) (contract : String) (target_loaded : Json) :
    (Session × CompilationUnit) × Option LoadErr :=
  let parts := pySplitColon contract
  let file := parts.getD 0 ""
  let filename := convert_filename file waffle_relative_to_short target
  match parts.get? 1 with
  | none => ((s, u), some .indexError)
  | some contract_name =>
    match target_all.getVal "sources" with
    | .error e => ((s, u), some e)
    | .ok sources =>
      match sources.getVal file with
      | .error e => ((s, u), some e)
      | .ok source_json =>
        match source_json.getVal "AST" with
        | .error e => ((s, u), some e)
        | .ok ast =>
          let u := { u with asts := objInsert u.asts filename.absolute ast }
          let s := { s with filenames := addSet s.filenames (.fn filename) }
          let u := { u with
            contracts_filenames := insertA u.contracts_filenames contract_name (.fn filename) }
          let u := { u with contracts_names := addSet u.contracts_names contract_name }
          match target_loaded.getVal "abi" with
          | .error e => ((s, u), some e)
          | .ok abi =>
            let u := { u with abis := insertA u.abis contract_name abi }
            let userdoc := (target_loaded.lookup "userdoc").getD (Json.obj [])
            let devdoc := (target_loaded.lookup "devdoc").getD (Json.obj [])
            let u := { u with
              natspec := insertA u.natspec contract_name ⟨userdoc, devdoc⟩ }
            match target_loaded.getVal "evm" with
            | .error e => ((s, u), some e)
            | .ok evm =>
              match evm.getVal "bytecode" with
              | .error e => ((s, u), some e)
              | .ok bytecode =>
                match bytecode.getVal "object" with
                | .error e => ((s, u), some e)
                | .ok bin =>
                  let u := { u with
                    bytecodes_init := insertA u.bytecodes_init contract_name bin }
                  match bytecode.getStr "sourceMap" with
                  | .error e => ((s, u), some e)
                  | .ok sm =>
                    let u := { u with
                      srcmaps_init := insertA u.srcmaps_init contract_name (pySplitSemi sm) }
                    match evm.getVal "deployedBytecode" with
                    | .error e => ((s, u), some e)
                    | .ok deployed =>
                      match deployed.getVal "object" with
                      | .error e => ((s, u), some e)
                      | .ok binr =>
                        let u := { u with
                          bytecodes_runtime := insertA u.bytecodes_runtime contract_name binr }
                        match deployed.getStr "sourceMap" with
                        | .error e => ((s, u), some e)
                        | .ok smr =>
                          let u := { u with
                            srcmaps_runtime :=
                              insertA u.srcmaps_runtime contract_name (pySplitSemi smr) }
                          ((s, u), none)

def waffle_contracts_fold (target : String) (target_all : Json) :
    List (String × Json) → Session → CompilationUnit →
    (Session × CompilationUnit) × Option LoadErr
  | [], s, u => ((s, u), none)
  | (contract, target_loaded) :: rest, s, u =>
    match waffle_contract_step s u target target_all contract target_loaded with
    | (su, some e) => (su, some e)
    | ((s', u'), none) => waffle_contracts_fold target target_all rest s' u'

/-- The pure core of `Waffle.compile`, lines 173–212: everything after the
external tool ran and `Combined-Json.json` was parsed into `target_all`.
`compiler` and `version` are the values discovered by the (out-of-core,
§1) configuration and version logic earlier in the method; `optimized` is
`None` (line 173).  The unit is registered under `str(target)` at
construction, so a partially populated unit stays registered on error. -/
def waffle_compile_core (s : Session) (target : String)
    (compiler version : Json) (target_all : Json) : Session × Option LoadErr :=
  match target_all.getFields "contracts" with
  | .error e =>
    ({ s with compilation_units :=
        insertA s.compilation_units target CompilationUnit.empty }, some e)
  | .ok entries =>
    match waffle_contracts_fold target target_all entries s CompilationUnit.empty with
    | ((s', u), some e) =>
      ({ s' with compilation_units := insertA s'.compilation_units target u }, some e)
    | ((s', u), none) =>
      let u := { u with compiler_version := some ⟨compiler, version, Json.null⟩ }
      ({ s' with compilation_units := insertA s'.compilation_units target u }, none)

/-! ## platform/dapp.py -/

/-- `Dapp.is_dependency`, lines 137–148, with its cache made explicit: a
cache hit returns the cached value; a miss computes and caches the
`node_modules`-based result but returns the `lib`-based one. -/
def dapp_is_dependency (cache : List (String × Bool)) (path : String) :
    Bool × List (String × Bool) :=
  match lookupA cache path with
  | some v => (v, cache)
  | none =>
    let ret := "node_modules" ∈ pathParts path
    ("lib" ∈ pathParts path, insertA cache path ret)

/-- The result and cache after the `n`-th repeated call (0-indexed) of
`Dapp.is_dependency` on the same path. -/
def dapp_is_dependency_calls (path : String) (cache : List (String × Bool)) :
    Nat → Bool × List (String × Bool)
  | 0 => dapp_is_dependency cache path
  | n + 1 => dapp_is_dependency (dapp_is_dependency_calls path cache n).2 path

def dappDescr : PlatformDescr :=
  ⟨"Dapp", "https://github.com/dapphub/dapptools", .DAPP,
   fun path => "lib" ∈ pathParts path, ["dapp test"]⟩

/-- Modelled from the spec: `extract_name` of `utils/naming.py` (not in the
sample) strips a fully-qualified `File.sol:` prefix down to the bare
contract name (§3). -/
def extract_name (original : String) : String :=
  ((pySplitColon original).getLast?).getD original

/-- The optimizer flag a contract's build `info` reports, if it reports
one: the `metadata` field (an embedded JSON document, parsed) must carry
`settings.optimizer.enabled` (dapp.py lines 74–81). -/
def dapp_opt_reported (info : Json) : Option Json :=
  match info.lookup "metadata" with
  | none => none
  | some metadata =>
    match metadata.lookup "settings" with
    | none => none
    | some settings =>
      match settings.lookup "optimizer" with
      | none => none
      | some optimizer => optimizer.lookup "enabled"

/-- One iteration of the inner `Dapp.compile` loop, lines 73–106:
`optimized |= …` when the metadata chain is present, then the unit's
per-contract mappings; both source maps come from
`info["evm"]["bytecode"]["sourceMap"]` (the source reads the `bytecode`
map for the runtime entry as well). -/
def dapp_contract_step (u : CompilationUnit) (optimized : Bool)
    (original_filename original_contract_name : String) (info : Json) :
    (CompilationUnit × Bool) × Option LoadErr :=
  let optimized :=
    match dapp_opt_reported info with
    | some v => optimized || v.truthy
    | none => optimized
  let contract_name := extract_name original_contract_name
  let u := { u with contracts_names := addSet u.contracts_names contract_name }
  let u := { u with
    contracts_filenames :=
      insertA u.contracts_filenames contract_name (.raw original_filename) }
  match info.getVal "abi" with
  | .error e => ((u, optimized), some e)
  | .ok abi =>
    let u := { u with abis := insertA u.abis contract_name abi }
    match info.getVal "evm" with
    | .error e => ((u, optimized), some e)
    | .ok evm =>
      match evm.getVal "bytecode" with
      | .error e => ((u, optimized), some e)
      | .ok bytecode =>
        match bytecode.getVal "object" with
        | .error e => ((u, optimized), some e)
        | .ok bin =>
          let u := { u with bytecodes_init := insertA u.bytecodes_init contract_name bin }
          match evm.getVal "deployedBytecode" with
          | .error e => ((u, optimized), some e)
          | .ok deployed =>
            match deployed.getVal "object" with
            | .error e => ((u, optimized), some e)
            | .ok binr =>
              let u := { u with
                bytecodes_runtime := insertA u.bytecodes_runtime contract_name binr }
              match bytecode.getStr "sourceMap" with
              | .error e => ((u, optimized), some e)
              | .ok sm =>
                let u := { u with
                  srcmaps_init := insertA u.srcmaps_init contract_name (pySplitSemi sm) }
                let u := { u with
                  srcmaps_runtime := insertA u.srcmaps_runtime contract_name (pySplitSemi sm) }
                let userdoc := (info.lookup "userdoc").getD (Json.obj [])
                let devdoc := (info.lookup "devdoc").getD (Json.obj [])
                let u := { u with
                  natspec := insertA u.natspec contract_name ⟨userdoc, devdoc⟩ }
                ((u, optimized), none)

def dapp_contracts_fold (original_filename : String) :
    List (String × Json) → CompilationUnit → Bool →
    (CompilationUnit × Bool) × Option LoadErr
  | [], u, optimized => ((u, optimized), none)
  | (name, info) :: rest, u, optimized =>
    match dapp_contract_step u optimized original_filename name info with
    | (r, some e) => (r, some e)
    | ((u', optimized'), none) => dapp_contracts_fold original_filename rest u' optimized'

def dapp_files_fold :
    List (String × Json) → CompilationUnit → Bool →
    (CompilationUnit × Bool) × Option LoadErr
  | [], u, optimized => ((u, optimized), none)
  | (original_filename, contracts_info) :: rest, u, optimized =>
    match contracts_info with
    | .obj entries =>
      match dapp_contracts_fold original_filename entries u optimized with
      | (r, some e) => (r, some e)
      | ((u', optimized'), none) => dapp_files_fold rest u' optimized'
    | _ => ((u, optimized), some (.typeError original_filename))

def dapp_sources_fold (target : String) :
    List (String × Json) → Session → CompilationUnit →
    (Session × CompilationUnit) × Option LoadErr
  | [], s, u => ((s, u), none)
  | (path, info) :: rest, s, u =>
    let filename := convert_filename path dapp_relative_to_short target
    let s := { s with filenames := addSet s.filenames (.fn filename) }
    match info.getVal "ast" with
    | .error e => ((s, u), some e)
    | .ok ast =>
      let u := { u with asts := objInsert u.asts filename.absolute ast }
      dapp_sources_fold target rest s u

/-- The pure core of `Dapp.compile`, lines 59–117: everything after
`dapp.sol.json` was parsed into `targets_json`.  `version` is the value of
the (out-of-core, §1) regular-expression discovery of lines 68–70/104–106.
The contracts loops populate the unit and aggregate `optimized` by
or-assignment; the sources loop resolves each path and stores its AST; the
final `CompilerVersion` is `("solc", version, optimized)` (line 115,
overwriting the provisional value of line 61). -/
def dapp_compile_core (s : Session) (target : String) (version : Json)
    (targets_json : Json) : Session × Option LoadErr :=
  let register := fun (s' : Session) (u : CompilationUnit) =>
    { s' with compilation_units := insertA s'.compilation_units target u }
  match targets_json.getFields "contracts" with
  | .error e => (register s CompilationUnit.empty, some e)
  | .ok files =>
    match dapp_files_fold files CompilationUnit.empty false with
    | ((u, _), some e) => (register s u, some e)
    | ((u, optimized), none) =>
      match targets_json.getFields "sources" with
      | .error e => (register s u, some e)
      | .ok sources =>
        match dapp_sources_fold target sources s u with
        | ((s', u'), some e) => (register s' u', some e)
        | ((s', u'), none) =>
          let u' := { u' with
            compiler_version := some ⟨.str "solc", version, .bool optimized⟩ }
          (register s' u', none)

/-- The flags the contracts of a dapp build output individually report, in
iteration order, when every contract reports one. -/
def dapp_reported_flags (files : List (String × Json)) : Option (List Bool) :=
  match files with
  | [] => some []
  | (_, contracts_info) :: rest =>
    match contracts_info with
    | .obj entries =>
      match entries.mapM (fun kv =>
          match dapp_opt_reported kv.2 with
          | some (.bool b) => some b
          | _ => none) with
      | none => none
      | some flags =>
        match dapp_reported_flags rest with
        | none => none
        | some flags' => some (flags ++ flags')
    | _ => none

/-! ## Registry resolution (`Standard.compile`, lines 83–90) -/

/-- Modelled from the spec: the registered platform classes returned by
`get_platforms` (not in the sample) — the sampled adapters. -/
def get_platforms : List PlatformDescr :=
  [dappDescr, waffleDescr]

/-- Lines 86–88 of `Standard.compile`: convert the artifact's integer tag
to the enumeration (raising `ValueError` for a non-member), then take the
first registered platform with that tag, defaulting to `Standard`. -/
def resolve_underlying_platform (tag : Int) : Except LoadErr PlatformDescr :=
  match PlatformType.ofInt tag with
  | .error e => .error e
  | .ok t => .ok ((get_platforms.find? (fun p => decide (p.ptype = t))).getD standardDescr)

/-- A fresh session, as `CryticCompile` hands one to `Standard.compile`
before `load_from_compile` runs: empty state, the Standard platform. -/
def emptyStandardSession : Session :=
  ⟨[], [], [], none, Json.null, standard_is_dependency,
   PlatformType.STANDARD.toInt, []⟩

/-! ## Library lemmas on the dictionary/set model -/

theorem lookupA_insertA_self {α : Type} (m : List (String × α)) (k : String)
    (v : α) : lookupA (insertA m k v) k = some v := by
  induction m with
  | nil => simp [insertA, lookupA]
  | cons kv rest ih =>
    obtain ⟨k', v'⟩ := kv
    by_cases h : k' = k <;> simp [insertA, lookupA, h, ih]

theorem lookupA_insertA_of_ne {α : Type} (m : List (String × α))
    (k k' : String) (v : α) (h : k' ≠ k) :
    lookupA (insertA m k v) k' = lookupA m k' := by
  have hne : k ≠ k' := Ne.symm h
  induction m with
  | nil => simp [insertA, lookupA, hne]
  | cons kv rest ih =>
    obtain ⟨k0, v0⟩ := kv
    by_cases h0 : k0 = k
    · subst h0
      simp [insertA, lookupA, hne]
    · simp [insertA, lookupA, h0, ih]

theorem mem_addSet_iff {α : Type} [DecidableEq α] (s : List α) (x y : α) :
    x ∈ addSet s y ↔ x ∈ s ∨ x = y := by
  unfold addSet
  by_cases h : y ∈ s
  · simp only [if_pos h]
    constructor
    · exact Or.inl
    · rintro (hx | rfl)
      · exact hx
      · exact h
  · simp [if_neg h]

theorem mem_addAllSet_iff {α : Type} [DecidableEq α] (s xs : List α) (x : α) :
    x ∈ addAllSet s xs ↔ x ∈ s ∨ x ∈ xs := by
  induction xs generalizing s with
  | nil => simp [addAllSet]
  | cons y ys ih =>
    show x ∈ addAllSet (addSet s y) ys ↔ _
    rw [ih, mem_addSet_iff]
    simp only [List.mem_cons]
    tauto

theorem foldl_addSet_of_nodup {α : Type} [DecidableEq α] (l acc : List α)
    (hnd : l.Nodup) (hdisj : ∀ x ∈ l, x ∉ acc) :
    l.foldl addSet acc = acc ++ l := by
  induction l generalizing acc with
  | nil => simp
  | cons y ys ih =>
    have hy : y ∉ acc := hdisj y (List.mem_cons_self _ _)
    have : addSet acc y = acc ++ [y] := if_neg hy
    rw [List.foldl_cons, this, ih (acc ++ [y]) (List.nodup_cons.mp hnd).2]
    · simp
    · intro x hx
      rw [List.mem_append, List.mem_singleton]
      rintro (hx' | rfl)
      · exact hdisj x (List.mem_cons_of_mem _ hx) hx'
      · exact (List.nodup_cons.mp hnd).1 hx

/-! ## Behaviour of the per-contract loader -/

/-- Full description of a successful per-contract load, given the values
present in the document. -/
theorem load_contract_legacy_spec (u : CompilationUnit) (n : String)
    (c fns : Json) (a r sh us : String) (abi bin binr : Json) (sm smr : String)
    (libs dep : Json)
    (h1 : c.lookup "filenames" = some fns)
    (h2 : fns.lookup "absolute" = some (.str a))
    (h3 : fns.lookup "relative" = some (.str r))
    (h4 : fns.lookup "short" = some (.str sh))
    (h5 : fns.lookup "used" = some (.str us))
    (h6 : c.lookup "abi" = some abi)
    (h7 : c.lookup "bin" = some bin)
    (h8 : c.lookup "bin-runtime" = some binr)
    (h9 : c.lookup "srcmap" = some (.str sm))
    (h10 : c.lookup "srcmap-runtime" = some (.str smr))
    (h11 : c.lookup "libraries" = some libs)
    (h12 : c.lookup "is_dependency" = some dep) :
    load_contract_legacy u n c =
      ({ u with
          contracts_names := addSet u.contracts_names n,
          contracts_filenames := insertA u.contracts_filenames n (.fn ⟨a, r, sh, us⟩),
          abis := insertA u.abis n abi,
          bytecodes_init := insertA u.bytecodes_init n bin,
          bytecodes_runtime := insertA u.bytecodes_runtime n binr,
          srcmaps_init := insertA u.srcmaps_init n (pySplitSemi sm),
          srcmaps_runtime := insertA u.srcmaps_runtime n (pySplitSemi smr),
          libraries := insertA u.libraries n libs,
          natspec := insertA u.natspec n
            ⟨(c.lookup "userdoc").getD (Json.obj []),
             (c.lookup "devdoc").getD (Json.obj [])⟩ },
        (if dep.truthy then [a, r, sh, us] else []), none) := by
  unfold load_contract_legacy
  simp only [Json.getVal, Json.getStr, h1, h2, h3, h4, h5, h6, h7, h8, h9, h10,
    h11, h12]
  by_cases hdep : dep.truthy <;> simp [hdep]

/-- The contract name is recorded no matter how the rest of the contract
load goes (the source adds it before any fallible read). -/
theorem load_contract_legacy_names (u : CompilationUnit) (n : String)
    (c : Json) :
    (load_contract_legacy u n c).1.contracts_names
      = addSet u.contracts_names n := by
  unfold load_contract_legacy
  repeat' split
  all_goals rfl

/-- The per-contract loader never touches `asts`. -/
theorem load_contract_legacy_asts (u : CompilationUnit) (n : String)
    (c : Json) : (load_contract_legacy u n c).1.asts = u.asts := by
  unfold load_contract_legacy
  repeat' split
  all_goals rfl

/-- The per-contract loader never touches `compiler_version`. -/
theorem load_contract_legacy_cv (u : CompilationUnit) (n : String)
    (c : Json) :
    (load_contract_legacy u n c).1.compiler_version = u.compiler_version := by
  unfold load_contract_legacy
  repeat' split
  all_goals rfl

/-- A contract entry with no `filenames` key makes the per-contract load
raise. -/
theorem load_contract_legacy_err_filenames (u : CompilationUnit) (n : String)
    (c : Json) (h : c.lookup "filenames" = none) :
    (load_contract_legacy u n c).2.2 = some (.keyError "filenames") := by
  unfold load_contract_legacy
  simp only [Json.getVal, h]

/-- A contract entry with no `abi` key makes the per-contract load raise. -/
theorem load_contract_legacy_err_abi (u : CompilationUnit) (n : String)
    (c : Json) (h : c.lookup "abi" = none) :
    (load_contract_legacy u n c).2.2.isSome = true := by
  unfold load_contract_legacy Json.getVal Json.getStr
  repeat' split
  all_goals simp_all

/-- On a successful contracts loop the unit's name set is the fold of the
entry keys over the starting set, and `asts` / `compiler_version` are
untouched. -/
theorem load_contracts_fold_ok (entries : List (String × Json))
    (u : CompilationUnit)
    (h : (load_contracts_fold load_contract_legacy u entries).2.2 = none) :
    (load_contracts_fold load_contract_legacy u entries).1.contracts_names
        = entries.foldl (fun acc kv => addSet acc kv.1) u.contracts_names ∧
    (load_contracts_fold load_contract_legacy u entries).1.asts = u.asts ∧
    (load_contracts_fold load_contract_legacy u entries).1.compiler_version
        = u.compiler_version := by
  induction entries generalizing u with
  | nil => simp [load_contracts_fold]
  | cons kv rest ih =>
    obtain ⟨name, cj⟩ := kv
    rcases hstep : load_contract_legacy u name cj with ⟨u', deps, err⟩
    simp only [load_contracts_fold, hstep] at h ⊢
    cases err with
    | some e => simp at h
    | none =>
      rcases hfold : load_contracts_fold load_contract_legacy u' rest
        with ⟨u'', deps', err'⟩
      simp only [hfold] at h ⊢
      cases err' with
      | some e => simp at h
      | none =>
        have hu' := ih u' (by rw [hfold])
        rw [hfold] at hu'
        have hn := load_contract_legacy_names u name cj
        have ha := load_contract_legacy_asts u name cj
        have hc := load_contract_legacy_cv u name cj
        rw [hstep] at hn ha hc
        simp only [List.foldl_cons]
        exact ⟨by rw [hu'.1, hn], by rw [hu'.2.1, ha], by rw [hu'.2.2, hc]⟩

/-- A failing step anywhere in the contracts loop fails the loop. -/
theorem load_contracts_fold_err (entries : List (String × Json))
    (u : CompilationUnit) (name : String) (cj : Json)
    (hmem : (name, cj) ∈ entries)
    (hstep : ∀ u', (load_contract_legacy u' name cj).2.2.isSome = true) :
    (load_contracts_fold load_contract_legacy u entries).2.2.isSome = true := by
  induction entries generalizing u with
  | nil => simp at hmem
  | cons kv rest ih =>
    obtain ⟨n0, c0⟩ := kv
    rcases List.mem_cons.mp hmem with heq | hmem'
    · injection heq with hn hc
      subst hn; subst hc
      rcases h0 : load_contract_legacy u name cj with ⟨u', deps, err⟩
      have := hstep u
      rw [h0] at this
      cases err with
      | some e => simp [load_contracts_fold, h0]
      | none => simp at this
    · rcases h0 : load_contract_legacy u n0 c0 with ⟨u', deps, err⟩
      cases err with
      | some e => simp [load_contracts_fold, h0]
      | none =>
        have := ih u' hmem'
        rcases hfold : load_contracts_fold load_contract_legacy u' rest
          with ⟨u'', deps', err'⟩
        rw [hfold] at this
        simp only [load_contracts_fold, h0, hfold]
        exact this

/-- Inversion: a string can land in the dependency additions of a
per-contract load only on the success path, with a truthy
`is_dependency` flag, and it is then one of the four filename views. -/
theorem load_contract_legacy_deps_inv (u : CompilationUnit) (n : String)
    (c : Json) (x : String) (hx : x ∈ (load_contract_legacy u n c).2.1) :
    ∃ fns a r sh us dep,
      c.lookup "filenames" = some fns ∧
      fns.lookup "absolute" = some (.str a) ∧
      fns.lookup "relative" = some (.str r) ∧
      fns.lookup "short" = some (.str sh) ∧
      fns.lookup "used" = some (.str us) ∧
      c.lookup "is_dependency" = some dep ∧
      dep.truthy = true ∧ (x = a ∨ x = r ∨ x = sh ∨ x = us) := by
  unfold load_contract_legacy at hx
  cases h1 : c.lookup "filenames" with
  | none => simp [Json.getVal, h1] at hx
  | some fns =>
  simp only [Json.getVal, h1] at hx
  cases h2 : fns.lookup "absolute" with
  | none => simp [Json.getStr, h2] at hx
  | some va =>
  cases va with
  | null => simp [Json.getStr, h2] at hx
  | bool b => simp [Json.getStr, h2] at hx
  | num m => simp [Json.getStr, h2] at hx
  | arr xs => simp [Json.getStr, h2] at hx
  | obj fs => simp [Json.getStr, h2] at hx
  | str a =>
  simp only [Json.getStr, h2] at hx
  cases h3 : fns.lookup "relative" with
  | none => simp [Json.getStr, h3] at hx
  | some vr =>
  cases vr with
  | null => simp [Json.getStr, h3] at hx
  | bool b => simp [Json.getStr, h3] at hx
  | num m => simp [Json.getStr, h3] at hx
  | arr xs => simp [Json.getStr, h3] at hx
  | obj fs => simp [Json.getStr, h3] at hx
  | str r =>
  simp only [Json.getStr, h3] at hx
  cases h4 : fns.lookup "short" with
  | none => simp [Json.getStr, h4] at hx
  | some vs =>
  cases vs with
  | null => simp [Json.getStr, h4] at hx
  | bool b => simp [Json.getStr, h4] at hx
  | num m => simp [Json.getStr, h4] at hx
  | arr xs => simp [Json.getStr, h4] at hx
  | obj fs => simp [Json.getStr, h4] at hx
  | str sh =>
  simp only [Json.getStr, h4] at hx
  cases h5 : fns.lookup "used" with
  | none => simp [Json.getStr, h5] at hx
  | some vu =>
  cases vu with
  | null => simp [Json.getStr, h5] at hx
  | bool b => simp [Json.getStr, h5] at hx
  | num m => simp [Json.getStr, h5] at hx
  | arr xs => simp [Json.getStr, h5] at hx
  | obj fs => simp [Json.getStr, h5] at hx
  | str us =>
  simp only [Json.getStr, h5] at hx
  cases h6 : c.lookup "abi" with
  | none => simp [Json.getVal, h6] at hx
  | some abi =>
  simp only [Json.getVal, h6] at hx
  cases h7 : c.lookup "bin" with
  | none => simp [Json.getVal, h7] at hx
  | some bin =>
  simp only [Json.getVal, h7] at hx
  cases h8 : c.lookup "bin-runtime" with
  | none => simp [Json.getVal, h8] at hx
  | some binr =>
  simp only [Json.getVal, h8] at hx
  cases h9 : c.lookup "srcmap" with
  | none => simp [Json.getStr, h9] at hx
  | some vsm =>
  cases vsm with
  | null => simp [Json.getStr, h9] at hx
  | bool b => simp [Json.getStr, h9] at hx
  | num m => simp [Json.getStr, h9] at hx
  | arr xs => simp [Json.getStr, h9] at hx
  | obj fs => simp [Json.getStr, h9] at hx
  | str sm =>
  simp only [Json.getStr, h9] at hx
  cases h10 : c.lookup "srcmap-runtime" with
  | none => simp [Json.getStr, h10] at hx
  | some vsr =>
  cases vsr with
  | null => simp [Json.getStr, h10] at hx
  | bool b => simp [Json.getStr, h10] at hx
  | num m => simp [Json.getStr, h10] at hx
  | arr xs => simp [Json.getStr, h10] at hx
  | obj fs => simp [Json.getStr, h10] at hx
  | str smr =>
  simp only [Json.getStr, h10] at hx
  cases h11 : c.lookup "libraries" with
  | none => simp [Json.getVal, h11] at hx
  | some libs =>
  simp only [Json.getVal, h11] at hx
  cases h12 : c.lookup "is_dependency" with
  | none => simp [Json.getVal, h12] at hx
  | some dep =>
  simp only [Json.getVal, h12] at hx
  by_cases ht : dep.truthy
  · simp only [ht, if_true] at hx
    simp only [List.mem_cons, List.mem_singleton] at hx
    refine ⟨fns, a, r, sh, us, dep, ?_, ?_, ?_, ?_, ?_, ?_, ht, by tauto⟩
    all_goals first | rfl | assumption
  · simp [ht] at hx

/-- Inversion at the contracts-loop level: a dependency addition comes
from some contract entry of the loop. -/
theorem load_contracts_fold_deps_inv (entries : List (String × Json))
    (u : CompilationUnit) (x : String)
    (hx : x ∈ (load_contracts_fold load_contract_legacy u entries).2.1) :
    ∃ n c u', (n, c) ∈ entries ∧ x ∈ (load_contract_legacy u' n c).2.1 := by
  induction entries generalizing u with
  | nil => simp [load_contracts_fold] at hx
  | cons kv rest ih =>
    obtain ⟨n0, c0⟩ := kv
    rcases h0 : load_contract_legacy u n0 c0 with ⟨u', deps, err⟩
    simp only [load_contracts_fold, h0] at hx
    cases err with
    | some e =>
      exact ⟨n0, c0, u, List.mem_cons_self _ _, by rw [h0]; exact hx⟩
    | none =>
      rcases hfold : load_contracts_fold load_contract_legacy u' rest
        with ⟨u'', deps', err'⟩
      simp only [hfold] at hx
      rcases List.mem_append.mp hx with hx' | hx'
      · exact ⟨n0, c0, u, List.mem_cons_self _ _, by rw [h0]; exact hx'⟩
      · obtain ⟨n, c, u0, hmem, hm⟩ := ih u' (by rw [hfold]; exact hx')
        exact ⟨n, c, u0, List.mem_cons_of_mem _ hmem, hm⟩

/-- A flagged contract's dependency additions are contained in the
contracts-loop additions, when the loop completes. -/
theorem load_contracts_fold_deps_sub (entries : List (String × Json))
    (u : CompilationUnit) (n : String) (c : Json) (vs : List String)
    (hmem : (n, c) ∈ entries)
    (hstep : ∀ u', (load_contract_legacy u' n c).2.1 = vs)
    (hok : (load_contracts_fold load_contract_legacy u entries).2.2 = none) :
    ∀ x ∈ vs, x ∈ (load_contracts_fold load_contract_legacy u entries).2.1 := by
  induction entries generalizing u with
  | nil => simp at hmem
  | cons kv rest ih =>
    obtain ⟨n0, c0⟩ := kv
    rcases h0 : load_contract_legacy u n0 c0 with ⟨u', deps, err⟩
    simp only [load_contracts_fold, h0] at hok ⊢
    cases err with
    | some e => simp at hok
    | none =>
      rcases hfold : load_contracts_fold load_contract_legacy u' rest
        with ⟨u'', deps', err'⟩
      simp only [hfold] at hok ⊢
      cases err' with
      | some e => simp at hok
      | none =>
        intro x hxv
        rcases List.mem_cons.mp hmem with heq | hmem'
        · injection heq with hn hc
          subst hn; subst hc
          have hdv := hstep u
          simp only [h0] at hdv
          subst hdv
          exact List.mem_append.mpr (Or.inl hxv)
        · have := ih u' hmem' (by rw [hfold])
          rw [hfold] at this
          exact List.mem_append.mpr (Or.inr (this x hxv))

/-- A successful legacy populate pins every top-level read and reduces to
the contracts loop over the unit seeded with `asts` and the compiler
triple. -/
theorem load_from_compile_legacy_ok_decomp (doc : Json)
    (h : (load_from_compile_legacy doc).2.2 = none) :
    ∃ A V c v o entries,
      doc.lookup "asts" = some A ∧
      doc.lookup "compiler" = some V ∧
      V.lookup "compiler" = some c ∧
      V.lookup "version" = some v ∧
      V.lookup "optimized" = some o ∧
      doc.getFields "contracts" = .ok entries ∧
      load_from_compile_legacy doc
        = load_contracts_fold load_contract_legacy
            { CompilationUnit.empty with
                asts := A, compiler_version := some ⟨c, v, o⟩ } entries := by
  unfold load_from_compile_legacy at h ⊢
  cases h1 : doc.lookup "asts" with
  | none => simp [Json.getVal, h1] at h
  | some A =>
  simp only [Json.getVal, h1] at h ⊢
  cases h2 : doc.lookup "compiler" with
  | none => simp [Json.getVal, h2] at h
  | some V =>
  simp only [Json.getVal, h2] at h ⊢
  cases h3 : V.lookup "compiler" with
  | none => simp [Json.getVal, h3] at h
  | some c =>
  simp only [Json.getVal, h3] at h ⊢
  cases h4 : V.lookup "version" with
  | none => simp [Json.getVal, h4] at h
  | some v =>
  simp only [Json.getVal, h4] at h ⊢
  cases h5 : V.lookup "optimized" with
  | none => simp [Json.getVal, h5] at h
  | some o =>
  simp only [Json.getVal, h5] at h ⊢
  cases h6 : doc.lookup "contracts" with
  | none => simp [Json.getFields, h6] at h
  | some C =>
  cases C with
  | null => simp [Json.getFields, h6] at h
  | bool b => simp [Json.getFields, h6] at h
  | num m => simp [Json.getFields, h6] at h
  | str str0 => simp [Json.getFields, h6] at h
  | arr xs => simp [Json.getFields, h6] at h
  | obj entries =>
  simp only [Json.getFields, h6] at h ⊢
  refine ⟨A, V, c, v, o, entries, ?_, ?_, ?_, ?_, ?_, ?_, ?_⟩ <;>
    first
      | rfl
      | assumption

/-- A successful per-unit load pins every read, completes its contracts
loop, and passes the loop's dependency additions through unchanged. -/
theorem load_unit_json_ok_decomp (cuj : Json)
    (h : (load_unit_json cuj).2.2 = none) :
    ∃ V c v o entries,
      cuj.lookup "compiler" = some V ∧
      V.lookup "compiler" = some c ∧
      V.lookup "version" = some v ∧
      V.lookup "optimized" = some o ∧
      cuj.getFields "contracts" = .ok entries ∧
      (load_contracts_fold load_contract_legacy
          { CompilationUnit.empty with compiler_version := some ⟨c, v, o⟩ }
          entries).2.2 = none ∧
      (load_unit_json cuj).2.1
        = (load_contracts_fold load_contract_legacy
            { CompilationUnit.empty with compiler_version := some ⟨c, v, o⟩ }
            entries).2.1 := by
  have hstd : load_contract_std = load_contract_legacy := rfl
  unfold load_unit_json at h ⊢
  rw [hstd] at h ⊢
  cases h2 : cuj.lookup "compiler" with
  | none => simp [Json.getVal, h2] at h
  | some V =>
  simp only [Json.getVal, h2] at h ⊢
  cases h3 : V.lookup "compiler" with
  | none => simp [Json.getVal, h3] at h
  | some c =>
  simp only [Json.getVal, h3] at h ⊢
  cases h4 : V.lookup "version" with
  | none => simp [Json.getVal, h4] at h
  | some v =>
  simp only [Json.getVal, h4] at h ⊢
  cases h5 : V.lookup "optimized" with
  | none => simp [Json.getVal, h5] at h
  | some o =>
  simp only [Json.getVal, h5] at h ⊢
  cases h6 : cuj.lookup "contracts" with
  | none => simp [Json.getFields, h6] at h
  | some C =>
  cases C with
  | null => simp [Json.getFields, h6] at h
  | bool b => simp [Json.getFields, h6] at h
  | num m => simp [Json.getFields, h6] at h
  | str str0 => simp [Json.getFields, h6] at h
  | arr xs => simp [Json.getFields, h6] at h
  | obj entries =>
  simp only [Json.getFields, h6] at h ⊢
  rcases hfold : load_contracts_fold load_contract_legacy
      { CompilationUnit.empty with compiler_version := some ⟨c, v, o⟩ } entries
    with ⟨u', deps, err⟩
  simp only [hfold] at h ⊢
  cases err with
  | some e => simp at h
  | none =>
    cases h7 : cuj.lookup "asts" with
    | none => simp [Json.getVal, h7] at h
    | some A =>
      simp only [Json.getVal, h7] at h ⊢
      refine ⟨V, c, v, o, entries, ?_, ?_, ?_, ?_, ?_, ?_, ?_⟩ <;>
        first
          | rfl
          | assumption
          | (simp only [hfold])

/-- Inversion without a success hypothesis: any dependency addition of a
per-unit load comes from a contract of its contracts loop. -/
theorem load_unit_json_deps_inv (cuj : Json) (x : String)
    (hx : x ∈ (load_unit_json cuj).2.1) :
    ∃ entries n c u',
      cuj.getFields "contracts" = .ok entries ∧ (n, c) ∈ entries ∧
      x ∈ (load_contract_legacy u' n c).2.1 := by
  have hstd : load_contract_std = load_contract_legacy := rfl
  unfold load_unit_json at hx
  rw [hstd] at hx
  cases h2 : cuj.lookup "compiler" with
  | none => simp [Json.getVal, h2] at hx
  | some V =>
  simp only [Json.getVal, h2] at hx
  cases h3 : V.lookup "compiler" with
  | none => simp [Json.getVal, h3] at hx
  | some c =>
  simp only [Json.getVal, h3] at hx
  cases h4 : V.lookup "version" with
  | none => simp [Json.getVal, h4] at hx
  | some v =>
  simp only [Json.getVal, h4] at hx
  cases h5 : V.lookup "optimized" with
  | none => simp [Json.getVal, h5] at hx
  | some o =>
  simp only [Json.getVal, h5] at hx
  cases h6 : cuj.lookup "contracts" with
  | none => simp [Json.getFields, h6] at hx
  | some C =>
  cases C with
  | null => simp [Json.getFields, h6] at hx
  | bool b => simp [Json.getFields, h6] at hx
  | num m => simp [Json.getFields, h6] at hx
  | str str0 => simp [Json.getFields, h6] at hx
  | arr xs => simp [Json.getFields, h6] at hx
  | obj entries =>
  simp only [Json.getFields, h6] at hx
  rcases hfold : load_contracts_fold load_contract_legacy
      { CompilationUnit.empty with compiler_version := some ⟨c, v, o⟩ } entries
    with ⟨u', deps, err⟩
  simp only [hfold] at hx
  have hfetch : x ∈ (load_contracts_fold load_contract_legacy
      { CompilationUnit.empty with compiler_version := some ⟨c, v, o⟩ }
      entries).2.1 → ∃ n c u'', (n, c) ∈ entries ∧
        x ∈ (load_contract_legacy u'' n c).2.1 :=
    fun hmem => load_contracts_fold_deps_inv entries _ x hmem
  cases err with
  | some e =>
    obtain ⟨n, c0, u'', hm, hm'⟩ := hfetch (by rw [hfold]; exact hx)
    exact ⟨entries, n, c0, u'', by simp [Json.getFields, h6], hm, hm'⟩
  | none =>
    cases h7 : cuj.lookup "asts" with
    | none =>
      simp only [Json.getVal, h7] at hx
      obtain ⟨n, c0, u'', hm, hm'⟩ := hfetch (by rw [hfold]; exact hx)
      exact ⟨entries, n, c0, u'', by simp [Json.getFields, h6], hm, hm'⟩
    | some A =>
      simp only [Json.getVal, h7] at hx
      obtain ⟨n, c0, u'', hm, hm'⟩ := hfetch (by rw [hfold]; exact hx)
      exact ⟨entries, n, c0, u'', by simp [Json.getFields, h6], hm, hm'⟩

/-- Dependency additions already made persist across the rest of the
units loop. -/
theorem load_units_fold_deps_mono (entries : List (String × Json))
    (s : Session) (x : String) (hx : x ∈ s.dependencies) :
    x ∈ (load_units_fold s entries).1.dependencies := by
  induction entries generalizing s with
  | nil => exact hx
  | cons kv rest ih =>
    obtain ⟨k, cuj⟩ := kv
    rcases hu : load_unit_json cuj with ⟨u, deps, err⟩
    simp only [load_units_fold, hu]
    cases err with
    | some e =>
      exact (mem_addAllSet_iff _ _ _).mpr (Or.inl hx)
    | none =>
      exact ih _ ((mem_addAllSet_iff _ _ _).mpr (Or.inl hx))

/-- On a completed units loop, every unit's dependency additions are in
the final dependency set. -/
theorem load_units_fold_deps_sub (entries : List (String × Json))
    (s : Session) (k : String) (cuj : Json)
    (hmem : (k, cuj) ∈ entries)
    (hok : (load_units_fold s entries).2 = none) :
    ∀ x ∈ (load_unit_json cuj).2.1,
      x ∈ (load_units_fold s entries).1.dependencies := by
  induction entries generalizing s with
  | nil => simp at hmem
  | cons kv rest ih =>
    obtain ⟨k0, cuj0⟩ := kv
    rcases hu : load_unit_json cuj0 with ⟨u, deps, err⟩
    simp only [load_units_fold, hu] at hok ⊢
    cases err with
    | some e => simp at hok
    | none =>
      intro x hx
      rcases List.mem_cons.mp hmem with heq | hmem'
      · injection heq with hk hc
        subst hk; subst hc
        apply load_units_fold_deps_mono
        apply (mem_addAllSet_iff _ _ _).mpr
        right
        rw [hu] at hx
        exact hx
      · exact ih _ hmem' hok x hx

/-- Any member of the dependency set after the units loop was present
before, or was added by some unit of the loop. -/
theorem load_units_fold_deps_inv (entries : List (String × Json))
    (s : Session) (x : String)
    (hx : x ∈ (load_units_fold s entries).1.dependencies) :
    x ∈ s.dependencies ∨
      ∃ k cuj, (k, cuj) ∈ entries ∧ x ∈ (load_unit_json cuj).2.1 := by
  induction entries generalizing s with
  | nil => exact Or.inl hx
  | cons kv rest ih =>
    obtain ⟨k0, cuj0⟩ := kv
    rcases hu : load_unit_json cuj0 with ⟨u, deps, err⟩
    simp only [load_units_fold, hu] at hx
    cases err with
    | some e =>
      rcases (mem_addAllSet_iff _ _ _).mp hx with hx' | hx'
      · exact Or.inl hx'
      · exact Or.inr ⟨k0, cuj0, List.mem_cons_self _ _, by rw [hu]; exact hx'⟩
    | none =>
      rcases ih _ hx with hx' | ⟨k, cuj, hm, hm'⟩
      · rcases (mem_addAllSet_iff _ _ _).mp hx' with hx'' | hx''
        · exact Or.inl hx''
        · exact Or.inr ⟨k0, cuj0, List.mem_cons_self _ _, by rw [hu]; exact hx''⟩
      · exact Or.inr ⟨k, cuj, List.mem_cons_of_mem _ hm, hm'⟩

/-- On a completed units loop every unit's own load completed. -/
theorem load_units_fold_ok_units (entries : List (String × Json))
    (s : Session) (k : String) (cuj : Json)
    (hmem : (k, cuj) ∈ entries)
    (hok : (load_units_fold s entries).2 = none) :
    (load_unit_json cuj).2.2 = none := by
  induction entries generalizing s with
  | nil => simp at hmem
  | cons kv rest ih =>
    obtain ⟨k0, cuj0⟩ := kv
    rcases hu : load_unit_json cuj0 with ⟨u, deps, err⟩
    simp only [load_units_fold, hu] at hok
    cases err with
    | some e => simp at hok
    | none =>
      rcases List.mem_cons.mp hmem with heq | hmem'
      · injection heq with hk hc
        subst hk; subst hc
        rw [hu]
      · exact ih _ hmem' hok

/-- The final dependency set of a load, by schema branch, together with
what a successful load says about the branch. -/
theorem load_from_compile_deps (s : Session) (doc : Json) :
    ((load_from_compile s doc).1.dependencies =
      match doc.lookup "compilation_units" with
      | none => addAllSet s.dependencies (load_from_compile_legacy doc).2.1
      | some (Json.obj cus) =>
        (load_units_fold { s with package_name := doc.lookup "package" }
          cus).1.dependencies
      | some _ => s.dependencies) ∧
    ((load_from_compile s doc).2.isOk = true →
      match doc.lookup "compilation_units" with
      | none => (load_from_compile_legacy doc).2.2 = none
      | some (Json.obj cus) =>
        (load_units_fold { s with package_name := doc.lookup "package" }
          cus).2 = none
      | some _ => False) := by
  unfold load_from_compile
  cases hcu : doc.lookup "compilation_units" with
  | none =>
    rcases hleg : load_from_compile_legacy doc with ⟨u, deps, err⟩
    simp only [hcu, hleg]
    cases err with
    | some e => exact ⟨rfl, by intro h; simp [Except.isOk, Except.toBool] at h⟩
    | none =>
      refine ⟨?_, fun _ => rfl⟩
      cases hwd : doc.getVal "working_dir" with
      | error e => simp [hwd]
      | ok wd =>
        cases ht : doc.getVal "type" with
        | error e => simp [hwd, ht]
        | ok t => simp [hwd, ht]
  | some cus =>
    cases cus with
    | obj entries =>
      rcases hfold : load_units_fold
          { s with package_name := doc.lookup "package" } entries
        with ⟨s', err⟩
      simp only [hcu, hfold]
      cases err with
      | some e => exact ⟨rfl, by intro h; simp [Except.isOk, Except.toBool] at h⟩
      | none =>
        refine ⟨?_, fun _ => rfl⟩
        cases hwd : doc.getVal "working_dir" with
        | error e => simp [hwd]
        | ok wd =>
          cases ht : doc.getVal "type" with
          | error e => simp [hwd, ht]
          | ok t => simp [hwd, ht]
    | null => exact ⟨rfl, by intro h; simp [Except.isOk, Except.toBool] at h⟩
    | bool b => exact ⟨rfl, by intro h; simp [Except.isOk, Except.toBool] at h⟩
    | num m => exact ⟨rfl, by intro h; simp [Except.isOk, Except.toBool] at h⟩
    | str s0 => exact ⟨rfl, by intro h; simp [Except.isOk, Except.toBool] at h⟩
    | arr xs => exact ⟨rfl, by intro h; simp [Except.isOk, Except.toBool] at h⟩

/-- A successful load implies the document has a `working_dir` key. -/
theorem load_from_compile_ok_working_dir (s : Session) (doc : Json)
    (hok : (load_from_compile s doc).2.isOk = true) :
    (doc.lookup "working_dir").isSome = true := by
  cases hl : doc.lookup "working_dir" with
  | some wd => rfl
  | none =>
    exfalso
    unfold load_from_compile at hok
    cases hcu : doc.lookup "compilation_units" with
    | none =>
      rcases hleg : load_from_compile_legacy doc with ⟨u, deps, err⟩
      simp only [hcu, hleg] at hok
      cases err with
      | some e => simp [Except.isOk, Except.toBool] at hok
      | none => simp [Json.getVal, hl, Except.isOk, Except.toBool] at hok
    | some cus =>
      cases cus with
      | obj entries =>
        rcases hfold : load_units_fold
            { s with package_name := doc.lookup "package" } entries
          with ⟨s', err⟩
        simp only [hcu, hfold] at hok
        cases err with
        | some e => simp [Except.isOk, Except.toBool] at hok
        | none => simp [Json.getVal, hl, Except.isOk, Except.toBool] at hok
      | null => simp only [hcu] at hok; simp [Except.isOk, Except.toBool] at hok
      | bool b => simp only [hcu] at hok; simp [Except.isOk, Except.toBool] at hok
      | num m => simp only [hcu] at hok; simp [Except.isOk, Except.toBool] at hok
      | str s0 => simp only [hcu] at hok; simp [Except.isOk, Except.toBool] at hok
      | arr xs => simp only [hcu] at hok; simp [Except.isOk, Except.toBool] at hok

theorem Json.getFields_ok_inv (j : Json) (k : String)
    (l : List (String × Json)) (h : j.getFields k = .ok l) :
    j.lookup k = some (.obj l) := by
  unfold Json.getFields at h
  cases hl : j.lookup k with
  | none => rw [hl] at h; simp at h
  | some v =>
    rw [hl] at h
    cases v with
    | obj fields => injection h with h'; rw [h']
    | null => simp at h
    | bool b => simp at h
    | num m => simp at h
    | str s0 => simp at h
    | arr xs => simp at h

/-- The per-contract loader acts identically on a unit whatever its
`asts` field holds: it is parametric in `asts`. -/
theorem load_contract_legacy_asts_param (u : CompilationUnit) (X : Json)
    (n : String) (c : Json) :
    load_contract_legacy { u with asts := X } n c
      = ({ (load_contract_legacy u n c).1 with asts := X },
         (load_contract_legacy u n c).2.1, (load_contract_legacy u n c).2.2) := by
  unfold load_contract_legacy
  repeat' split
  all_goals rfl

/-- The contracts loop is likewise parametric in `asts`. -/
theorem load_contracts_fold_asts_param (entries : List (String × Json))
    (u : CompilationUnit) (X : Json) :
    load_contracts_fold load_contract_legacy { u with asts := X } entries
      = ({ (load_contracts_fold load_contract_legacy u entries).1 with asts := X },
         (load_contracts_fold load_contract_legacy u entries).2.1,
         (load_contracts_fold load_contract_legacy u entries).2.2) := by
  induction entries generalizing u with
  | nil => rfl
  | cons kv rest ih =>
    obtain ⟨n0, c0⟩ := kv
    rcases h0 : load_contract_legacy u n0 c0 with ⟨u', deps, err⟩
    have hp := load_contract_legacy_asts_param u X n0 c0
    rw [h0] at hp
    simp only [load_contracts_fold, h0, hp]
    cases err with
    | some e => rfl
    | none =>
      rcases hfold : load_contracts_fold load_contract_legacy u' rest
        with ⟨u'', deps', err'⟩
      have hq := ih u'
      rw [hfold] at hq
      simp only [hq, hfold]

/-- On a single-unit current-schema document, the loaded session's unit
map registers the unit under its JSON key; a successful load means the
unit's own load raised nothing. -/
theorem load_from_compile_units_current_single (s : Session) (doc : Json)
    (k : String) (cuj : Json)
    (hcu : doc.lookup "compilation_units" = some (Json.obj [(k, cuj)])) :
    (load_from_compile s doc).1.compilation_units
      = insertA s.compilation_units k (load_unit_json cuj).1 ∧
    ((load_from_compile s doc).2.isOk = true →
      (load_unit_json cuj).2.2 = none) := by
  unfold load_from_compile
  rcases hu : load_unit_json cuj with ⟨u, deps, err⟩
  simp only [hcu, load_units_fold, hu]
  cases err with
  | some e => exact ⟨rfl, by intro h; simp [Except.isOk, Except.toBool] at h⟩
  | none =>
    refine ⟨?_, fun _ => rfl⟩
    cases hwd : doc.getVal "working_dir" with
    | error e => simp [hwd]
    | ok wd =>
      cases ht : doc.getVal "type" with
      | error e => simp [hwd, ht]
      | ok t => simp [hwd, ht]

/-- The optimizer aggregate a contract step leaves behind: the incoming
value or-ed with the truthiness of the reported flag, when one is
reported — whatever else the step does. -/
theorem dapp_contract_step_opt (u : CompilationUnit) (b : Bool)
    (f n : String) (info : Json) :
    (dapp_contract_step u b f n info).1.2
      = (match dapp_opt_reported info with
         | some v => b || v.truthy
         | none => b) := by
  unfold dapp_contract_step
  repeat' split
  all_goals rfl

/-- Over a completed per-file contracts loop whose contracts all report
boolean flags, the aggregate is the incoming value or-ed with their
disjunction. -/
theorem dapp_contracts_fold_opt (f : String) (entries : List (String × Json))
    (u : CompilationUnit) (b : Bool) (flags : List Bool)
    (hrep : entries.mapM (fun kv =>
        match dapp_opt_reported kv.2 with
        | some (.bool bb) => some bb
        | _ => none) = some flags)
    (hok : (dapp_contracts_fold f entries u b).2 = none) :
    (dapp_contracts_fold f entries u b).1.2 = (b || flags.any id) := by
  induction entries generalizing u b flags with
  | nil =>
    simp only [List.mapM_nil, pure, Option.some.injEq] at hrep
    subst hrep
    simp [dapp_contracts_fold]
  | cons kv rest ih =>
    obtain ⟨n0, info0⟩ := kv
    rw [List.mapM_cons] at hrep
    cases hr : dapp_opt_reported info0 with
    | none => simp [hr] at hrep
    | some v =>
      cases v with
      | bool b0 =>
        simp only [hr] at hrep
        cases hrest : rest.mapM (fun kv =>
            match dapp_opt_reported kv.2 with
            | some (.bool bb) => some bb
            | _ => none) with
        | none => rw [hrest] at hrep; simp at hrep
        | some flags' =>
          rw [hrest] at hrep
          simp only [Option.bind_eq_bind, Option.some_bind, pure,
            Option.some.injEq] at hrep
          subst hrep
          rcases hstep : dapp_contract_step u b f n0 info0 with ⟨⟨u', b'⟩, err⟩
          have hb' := dapp_contract_step_opt u b f n0 info0
          rw [hstep, hr] at hb'
          simp only [dapp_contracts_fold, hstep] at hok ⊢
          cases err with
          | some e => simp at hok
          | none =>
            have hb2 : b' = (b || b0) := by simpa [Json.truthy] using hb'
            rw [ih u' b' flags' hrest hok, hb2]
            simp [Bool.or_assoc, List.any_cons, id]
      | null => simp [hr] at hrep
      | num m => simp [hr] at hrep
      | str s0 => simp [hr] at hrep
      | arr xs => simp [hr] at hrep
      | obj fs => simp [hr] at hrep

/-- Over a completed files loop whose contracts all report boolean flags,
the aggregate is the incoming value or-ed with the disjunction of all
reported flags. -/
theorem dapp_files_fold_opt (files : List (String × Json))
    (u : CompilationUnit) (b : Bool) (flags : List Bool)
    (hrep : dapp_reported_flags files = some flags)
    (hok : (dapp_files_fold files u b).2 = none) :
    (dapp_files_fold files u b).1.2 = (b || flags.any id) := by
  induction files generalizing u b flags with
  | nil =>
    simp only [dapp_reported_flags, Option.some.injEq] at hrep
    subst hrep
    simp [dapp_files_fold]
  | cons kv rest ih =>
    obtain ⟨f0, cinfo⟩ := kv
    cases cinfo with
    | obj entries =>
      simp only [dapp_reported_flags] at hrep
      cases hm : entries.mapM (fun kv =>
          match dapp_opt_reported kv.2 with
          | some (.bool bb) => some bb
          | _ => none) with
      | none => rw [hm] at hrep; simp at hrep
      | some flags1 =>
        rw [hm] at hrep
        cases hrest : dapp_reported_flags rest with
        | none => rw [hrest] at hrep; simp at hrep
        | some flags2 =>
          rw [hrest] at hrep
          simp only [Option.some.injEq] at hrep
          subst hrep
          rcases hcf : dapp_contracts_fold f0 entries u b with ⟨⟨u', b'⟩, err⟩
          simp only [dapp_files_fold, hcf] at hok ⊢
          cases err with
          | some e => simp at hok
          | none =>
            have hb' := dapp_contracts_fold_opt f0 entries u b flags1 hm
              (by rw [hcf])
            rw [hcf] at hb'
            have hb2 : b' = (b || flags1.any id) := by simpa using hb'
            rw [ih u' b' flags2 hrest hok, hb2]
            simp [Bool.or_assoc, List.any_append]
    | null => simp [dapp_reported_flags] at hrep
    | bool bb => simp [dapp_reported_flags] at hrep
    | num m => simp [dapp_reported_flags] at hrep
    | str s0 => simp [dapp_reported_flags] at hrep
    | arr xs => simp [dapp_reported_flags] at hrep

/-! ## Round-trip infrastructure (export followed by import) -/

theorem lookupA_of_mem_nodup {α : Type} (m : List (String × α)) (k : String)
    (v : α) (hnd : (m.map Prod.fst).Nodup) (hmem : (k, v) ∈ m) :
    lookupA m k = some v := by
  induction m with
  | nil => simp at hmem
  | cons kv rest ih =>
    obtain ⟨k0, v0⟩ := kv
    rcases List.mem_cons.mp hmem with heq | hmem'
    · injection heq with hk hv
      subst hk; subst hv
      simp [lookupA]
    · have hk0 : k0 ≠ k := by
        intro h
        subst h
        exact (List.nodup_cons.mp hnd).1
          (List.mem_map.mpr ⟨(k0, v), hmem', rfl⟩)
      simp only [lookupA, if_neg hk0]
      exact ih (List.nodup_cons.mp hnd).2 hmem'

/-- Export of one contract, given the mappings hold the needed values. -/
theorem export_contract_ok (S : Session) (u : CompilationUnit) (n : String)
    (f : Filename) (abi bin binr : Json) (s1 s2 : String) (ns : Natspec)
    (hf : lookupA u.contracts_filenames n = some (.fn f))
    (ha : lookupA u.abis n = some abi)
    (hb : lookupA u.bytecodes_init n = some bin)
    (hbr : lookupA u.bytecodes_runtime n = some binr)
    (hs1 : lookupA u.srcmaps_init n = some (pySplitSemi s1))
    (hs2 : lookupA u.srcmaps_runtime n = some (pySplitSemi s2))
    (hns : lookupA u.natspec n = some ns) :
    export_contract S u n = .ok (Json.obj
      [("abi", abi), ("bin", bin), ("bin-runtime", binr),
       ("srcmap", .str (pyJoinSemi (pySplitSemi s1))),
       ("srcmap-runtime", .str (pyJoinSemi (pySplitSemi s2))),
       ("filenames", Json.obj
          [("absolute", .str f.absolute), ("used", .str f.used),
           ("short", .str f.short), ("relative", .str f.relative)]),
       ("libraries",
         if ((lookupA u.libraries n).getD (Json.obj [])).truthy then
           (lookupA u.libraries n).getD (Json.obj [])
         else Json.obj []),
       ("is_dependency", .bool (S.is_dependency f.absolute)),
       ("userdoc", ns.userdoc), ("devdoc", ns.devdoc)]) := by
  unfold export_contract
  simp only [hf, ha, hb, hbr, hs1, hs2, hns]

/-- Keys not in the loop's entries are untouched by the units loop. -/
theorem load_units_fold_units_frame (entries : List (String × Json))
    (s : Session) (k : String) (hk : k ∉ entries.map Prod.fst) :
    lookupA (load_units_fold s entries).1.compilation_units k
      = lookupA s.compilation_units k := by
  induction entries generalizing s with
  | nil => rfl
  | cons kv rest ih =>
    obtain ⟨k0, cuj0⟩ := kv
    have hk0 : k ≠ k0 := by
      intro h
      exact hk (by simp [h])
    rcases hu : load_unit_json cuj0 with ⟨u, deps, err⟩
    simp only [load_units_fold, hu]
    cases err with
    | some e => exact lookupA_insertA_of_ne _ _ _ _ hk0
    | none =>
      rw [ih _ (fun h => hk (List.mem_cons_of_mem _ h))]
      exact lookupA_insertA_of_ne _ _ _ _ hk0

/-- On a completed units loop with distinct keys, each key maps to its
unit's loaded value. -/
theorem load_units_fold_lookup (entries : List (String × Json))
    (s : Session) (k : String) (cuj : Json)
    (hnd : (entries.map Prod.fst).Nodup)
    (hmem : (k, cuj) ∈ entries)
    (hok : (load_units_fold s entries).2 = none) :
    lookupA (load_units_fold s entries).1.compilation_units k
      = some (load_unit_json cuj).1 := by
  induction entries generalizing s with
  | nil => simp at hmem
  | cons kv rest ih =>
    obtain ⟨k0, cuj0⟩ := kv
    rcases hu : load_unit_json cuj0 with ⟨u, deps, err⟩
    simp only [load_units_fold, hu] at hok ⊢
    cases err with
    | some e => simp at hok
    | none =>
      rcases List.mem_cons.mp hmem with heq | hmem'
      · injection heq with hk hc
        subst hk; subst hc
        have hnotin : k ∉ rest.map Prod.fst := (List.nodup_cons.mp hnd).1
        rw [load_units_fold_units_frame rest _ k hnotin]
        simp only [lookupA_insertA_self]
        rw [hu]
      · exact ih _ (List.nodup_cons.mp hnd).2 hmem' hok

/-- The units loop completes when every unit's own load completes. -/
theorem load_units_fold_ok_of (entries : List (String × Json)) (s : Session)
    (h : ∀ k cuj, (k, cuj) ∈ entries → (load_unit_json cuj).2.2 = none) :
    (load_units_fold s entries).2 = none := by
  induction entries generalizing s with
  | nil => rfl
  | cons kv rest ih =>
    obtain ⟨k0, cuj0⟩ := kv
    rcases hu : load_unit_json cuj0 with ⟨u, deps, err⟩
    simp only [load_units_fold, hu]
    cases err with
    | some e =>
      have := h k0 cuj0 (List.mem_cons_self _ _)
      rw [hu] at this
      simp at this
    | none => exact ih _ (fun k cuj hm => h k cuj (List.mem_cons_of_mem _ hm))

/-- On a current-schema document the loaded session's unit map is the one
the units loop built; success means the loop completed. -/
theorem load_from_compile_units_current (s : Session) (doc : Json)
    (cus : List (String × Json))
    (hcu : doc.lookup "compilation_units" = some (Json.obj cus)) :
    (load_from_compile s doc).1.compilation_units
      = (load_units_fold { s with package_name := doc.lookup "package" }
          cus).1.compilation_units ∧
    ((load_from_compile s doc).2.isOk = true →
      (load_units_fold { s with package_name := doc.lookup "package" }
        cus).2 = none) := by
  unfold load_from_compile
  rcases hfold : load_units_fold
      { s with package_name := doc.lookup "package" } cus with ⟨s', err⟩
  simp only [hcu, hfold]
  cases err with
  | some e => exact ⟨rfl, by intro h; simp [Except.isOk, Except.toBool] at h⟩
  | none =>
    refine ⟨?_, fun _ => rfl⟩
    cases hwd : doc.getVal "working_dir" with
    | error e => simp [hwd]
    | ok wd =>
      cases ht : doc.getVal "type" with
      | error e => simp [hwd, ht]
      | ok t => simp [hwd, ht]

/-- The unit-export loop succeeds entrywise, key order preserved. -/
theorem export_units_fold_ok (S : Session)
    (units : List (String × CompilationUnit))
    (hexp : ∀ k u, (k, u) ∈ units → ∃ uj, export_unit S u = .ok uj) :
    ∃ docUnits, export_units_fold S units = .ok docUnits ∧
      docUnits.map Prod.fst = units.map Prod.fst ∧
      (∀ k u, (k, u) ∈ units →
        ∃ uj, (k, uj) ∈ docUnits ∧ export_unit S u = .ok uj) ∧
      (∀ k uj, (k, uj) ∈ docUnits →
        ∃ u, (k, u) ∈ units ∧ export_unit S u = .ok uj) := by
  induction units with
  | nil => exact ⟨[], rfl, rfl, by simp, by simp⟩
  | cons kv rest ih =>
    obtain ⟨k0, u0⟩ := kv
    obtain ⟨uj0, hu0⟩ := hexp k0 u0 (List.mem_cons_self _ _)
    obtain ⟨docRest, hrest, hkeys, hmem, hmem'⟩ :=
      ih (fun k u hm => hexp k u (List.mem_cons_of_mem _ hm))
    refine ⟨(k0, uj0) :: docRest, ?_, ?_, ?_, ?_⟩
    · simp only [export_units_fold, hu0, hrest]
    · simp [hkeys]
    · intro k u hm
      rcases List.mem_cons.mp hm with heq | hm0
      · injection heq with hk hu
        subst hk; subst hu
        exact ⟨uj0, List.mem_cons_self _ _, hu0⟩
      · obtain ⟨uj, hmem0, he⟩ := hmem k u hm0
        exact ⟨uj, List.mem_cons_of_mem _ hmem0, he⟩
    · intro k uj hm
      rcases List.mem_cons.mp hm with heq | hm0
      · injection heq with hk hu
        subst hk; subst hu
        exact ⟨u0, List.mem_cons_self _ _, hu0⟩
      · obtain ⟨u, hmem0, he⟩ := hmem' k uj hm0
        exact ⟨u, List.mem_cons_of_mem _ hmem0, he⟩

/-- What a successful adapter run guarantees of a unit at a contract
name: every per-contract mapping is populated (the data-model invariant,
§3), the stored filename is a `Filename` value, and each stored source
map is the `";"`-split of some source-map string (every adapter populates
source maps via `.split(";")`). -/
def contractComplete (u : CompilationUnit) (n : String) : Prop :=
  (∃ f, lookupA u.contracts_filenames n = some (.fn f)) ∧
  (∃ a, lookupA u.abis n = some a) ∧
  (∃ b, lookupA u.bytecodes_init n = some b) ∧
  (∃ b, lookupA u.bytecodes_runtime n = some b) ∧
  (∃ s0, lookupA u.srcmaps_init n = some (pySplitSemi s0)) ∧
  (∃ s0, lookupA u.srcmaps_runtime n = some (pySplitSemi s0)) ∧
  (∃ ns, lookupA u.natspec n = some ns)

/-- Exporting a unit's complete contracts and importing the result
restores every per-contract mapping at every exported name. -/
theorem c1_fold_import (S : Session) (u : CompilationUnit)
    (names : List String) (hnd : names.Nodup)
    (hwfn : ∀ n ∈ names, contractComplete u n) :
    ∃ contracts, export_contracts_fold S u names = .ok contracts ∧
      ∀ u0 : CompilationUnit,
        ∃ u' deps,
          load_contracts_fold load_contract_legacy u0 contracts
            = (u', deps, none) ∧
          u'.contracts_names = names.foldl addSet u0.contracts_names ∧
          u'.asts = u0.asts ∧
          u'.compiler_version = u0.compiler_version ∧
          (∀ n ∈ names,
            lookupA u'.contracts_filenames n = lookupA u.contracts_filenames n ∧
            lookupA u'.abis n = lookupA u.abis n ∧
            lookupA u'.bytecodes_init n = lookupA u.bytecodes_init n ∧
            lookupA u'.bytecodes_runtime n = lookupA u.bytecodes_runtime n ∧
            lookupA u'.srcmaps_init n = lookupA u.srcmaps_init n ∧
            lookupA u'.srcmaps_runtime n = lookupA u.srcmaps_runtime n) ∧
          (∀ m, m ∉ names →
            lookupA u'.contracts_filenames m = lookupA u0.contracts_filenames m ∧
            lookupA u'.abis m = lookupA u0.abis m ∧
            lookupA u'.bytecodes_init m = lookupA u0.bytecodes_init m ∧
            lookupA u'.bytecodes_runtime m = lookupA u0.bytecodes_runtime m ∧
            lookupA u'.srcmaps_init m = lookupA u0.srcmaps_init m ∧
            lookupA u'.srcmaps_runtime m = lookupA u0.srcmaps_runtime m) := by
  induction names with
  | nil =>
    refine ⟨[], rfl, fun u0 => ⟨u0, [], rfl, rfl, rfl, rfl, by simp,
      fun m _ => ⟨rfl, rfl, rfl, rfl, rfl, rfl⟩⟩⟩
  | cons n0 rest ih =>
    obtain ⟨⟨f, hf⟩, ⟨abi, ha⟩, ⟨bin, hb⟩, ⟨binr, hbr⟩, ⟨s1, hs1⟩,
      ⟨s2, hs2⟩, ⟨ns, hns⟩⟩ := hwfn n0 (List.mem_cons_self _ _)
    have hn0notin : n0 ∉ rest := (List.nodup_cons.mp hnd).1
    have hec := export_contract_ok S u n0 f abi bin binr s1 s2 ns
      hf ha hb hbr hs1 hs2 hns
    obtain ⟨contracts', hexp', himp'⟩ := ih (List.nodup_cons.mp hnd).2
      (fun n hn => hwfn n (List.mem_cons_of_mem _ hn))
    refine ⟨(n0, Json.obj
      [("abi", abi), ("bin", bin), ("bin-runtime", binr),
       ("srcmap", .str (pyJoinSemi (pySplitSemi s1))),
       ("srcmap-runtime", .str (pyJoinSemi (pySplitSemi s2))),
       ("filenames", Json.obj
          [("absolute", .str f.absolute), ("used", .str f.used),
           ("short", .str f.short), ("relative", .str f.relative)]),
       ("libraries",
         if ((lookupA u.libraries n0).getD (Json.obj [])).truthy then
           (lookupA u.libraries n0).getD (Json.obj [])
         else Json.obj []),
       ("is_dependency", .bool (S.is_dependency f.absolute)),
       ("userdoc", ns.userdoc), ("devdoc", ns.devdoc)]) :: contracts',
      by simp only [export_contracts_fold, hec, hexp'], ?_⟩
    intro u0
    have hstep : load_contract_legacy u0 n0
        (Json.obj
          [("abi", abi), ("bin", bin), ("bin-runtime", binr),
           ("srcmap", .str (pyJoinSemi (pySplitSemi s1))),
           ("srcmap-runtime", .str (pyJoinSemi (pySplitSemi s2))),
           ("filenames", Json.obj
              [("absolute", .str f.absolute), ("used", .str f.used),
               ("short", .str f.short), ("relative", .str f.relative)]),
           ("libraries",
             if ((lookupA u.libraries n0).getD (Json.obj [])).truthy then
               (lookupA u.libraries n0).getD (Json.obj [])
             else Json.obj []),
           ("is_dependency", .bool (S.is_dependency f.absolute)),
           ("userdoc", ns.userdoc), ("devdoc", ns.devdoc)])
        = ({ u0 with
            contracts_names := addSet u0.contracts_names n0,
            contracts_filenames :=
              insertA u0.contracts_filenames n0
                (.fn ⟨f.absolute, f.relative, f.short, f.used⟩),
            abis := insertA u0.abis n0 abi,
            bytecodes_init := insertA u0.bytecodes_init n0 bin,
            bytecodes_runtime := insertA u0.bytecodes_runtime n0 binr,
            srcmaps_init := insertA u0.srcmaps_init n0
              (pySplitSemi (pyJoinSemi (pySplitSemi s1))),
            srcmaps_runtime := insertA u0.srcmaps_runtime n0
              (pySplitSemi (pyJoinSemi (pySplitSemi s2))),
            libraries := insertA u0.libraries n0
              (if ((lookupA u.libraries n0).getD (Json.obj [])).truthy then
                (lookupA u.libraries n0).getD (Json.obj [])
               else Json.obj []),
            natspec := insertA u0.natspec n0
              ⟨ns.userdoc, ns.devdoc⟩ },
          (if (Json.bool (S.is_dependency f.absolute)).truthy then
            [f.absolute, f.relative, f.short, f.used] else []), none) := by
      rw [load_contract_legacy_spec u0 n0
        (Json.obj
          [("abi", abi), ("bin", bin), ("bin-runtime", binr),
           ("srcmap", .str (pyJoinSemi (pySplitSemi s1))),
           ("srcmap-runtime", .str (pyJoinSemi (pySplitSemi s2))),
           ("filenames", Json.obj
              [("absolute", .str f.absolute), ("used", .str f.used),
               ("short", .str f.short), ("relative", .str f.relative)]),
           ("libraries",
             if ((lookupA u.libraries n0).getD (Json.obj [])).truthy then
               (lookupA u.libraries n0).getD (Json.obj [])
             else Json.obj []),
           ("is_dependency", .bool (S.is_dependency f.absolute)),
           ("userdoc", ns.userdoc), ("devdoc", ns.devdoc)])
        (Json.obj
          [("absolute", .str f.absolute), ("used", .str f.used),
           ("short", .str f.short), ("relative", .str f.relative)])
        f.absolute f.relative f.short f.used abi bin binr
        (pyJoinSemi (pySplitSemi s1)) (pyJoinSemi (pySplitSemi s2))
        (if ((lookupA u.libraries n0).getD (Json.obj [])).truthy then
          (lookupA u.libraries n0).getD (Json.obj [])
         else Json.obj [])
        (.bool (S.is_dependency f.absolute))
        rfl rfl rfl rfl rfl rfl rfl rfl rfl rfl rfl rfl]
      rfl
    obtain ⟨u', deps', hfold', hnames', hasts', hcv', hpos', hframe'⟩ :=
      himp' { u0 with
        contracts_names := addSet u0.contracts_names n0,
        contracts_filenames :=
          insertA u0.contracts_filenames n0
            (.fn ⟨f.absolute, f.relative, f.short, f.used⟩),
        abis := insertA u0.abis n0 abi,
        bytecodes_init := insertA u0.bytecodes_init n0 bin,
        bytecodes_runtime := insertA u0.bytecodes_runtime n0 binr,
        srcmaps_init := insertA u0.srcmaps_init n0
          (pySplitSemi (pyJoinSemi (pySplitSemi s1))),
        srcmaps_runtime := insertA u0.srcmaps_runtime n0
          (pySplitSemi (pyJoinSemi (pySplitSemi s2))),
        libraries := insertA u0.libraries n0
          (if ((lookupA u.libraries n0).getD (Json.obj [])).truthy then
            (lookupA u.libraries n0).getD (Json.obj [])
           else Json.obj []),
        natspec := insertA u0.natspec n0
          ⟨ns.userdoc, ns.devdoc⟩ }
    refine ⟨u',
      (if (Json.bool (S.is_dependency f.absolute)).truthy then
        [f.absolute, f.relative, f.short, f.used] else []) ++ deps',
      ?_, ?_, ?_, ?_, ?_, ?_⟩
    · simp only [load_contracts_fold, hstep, hfold']
    · rw [hnames']
      rfl
    · rw [hasts']
    · rw [hcv']
    · intro n hn
      rcases List.mem_cons.mp hn with rfl | hn'
      · obtain ⟨e1, e2, e3, e4, e5, e6⟩ := hframe' n hn0notin
        refine ⟨?_, ?_, ?_, ?_, ?_, ?_⟩
        · rw [e1, hf]
          exact lookupA_insertA_self _ _ _
        · rw [e2, ha]
          exact lookupA_insertA_self _ _ _
        · rw [e3, hb]
          exact lookupA_insertA_self _ _ _
        · rw [e4, hbr]
          exact lookupA_insertA_self _ _ _
        · rw [e5, hs1]
          show lookupA (insertA u0.srcmaps_init n
            (pySplitSemi (pyJoinSemi (pySplitSemi s1)))) n
            = some (pySplitSemi s1)
          rw [pySplitSemi_pyJoinSemi]
          exact lookupA_insertA_self _ _ _
        · rw [e6, hs2]
          show lookupA (insertA u0.srcmaps_runtime n
            (pySplitSemi (pyJoinSemi (pySplitSemi s2)))) n
            = some (pySplitSemi s2)
          rw [pySplitSemi_pyJoinSemi]
          exact lookupA_insertA_self _ _ _
      · exact hpos' n hn'
    · intro m hm
      have hm0 : m ≠ n0 := fun h => hm (h ▸ List.mem_cons_self _ _)
      have hmr : m ∉ rest := fun h => hm (List.mem_cons_of_mem _ h)
      obtain ⟨e1, e2, e3, e4, e5, e6⟩ := hframe' m hmr
      exact ⟨by rw [e1]; exact lookupA_insertA_of_ne _ _ _ _ hm0,
        by rw [e2]; exact lookupA_insertA_of_ne _ _ _ _ hm0,
        by rw [e3]; exact lookupA_insertA_of_ne _ _ _ _ hm0,
        by rw [e4]; exact lookupA_insertA_of_ne _ _ _ _ hm0,
        by rw [e5]; exact lookupA_insertA_of_ne _ _ _ _ hm0,
        by rw [e6]; exact lookupA_insertA_of_ne _ _ _ _ hm0⟩

/-- Export of a complete unit, imported, restores the unit's names,
ASTs, compiler version and every per-contract mapping. -/
theorem c1_unit_import (S : Session) (u : CompilationUnit)
    (cv : CompilerVersion)
    (hcv : u.compiler_version = some cv)
    (hnd : u.contracts_names.Nodup)
    (hwfn : ∀ n ∈ u.contracts_names, contractComplete u n) :
    ∃ uj, export_unit S u = .ok uj ∧
      (load_unit_json uj).2.2 = none ∧
      (load_unit_json uj).1.contracts_names = u.contracts_names ∧
      (load_unit_json uj).1.asts = u.asts ∧
      (load_unit_json uj).1.compiler_version = u.compiler_version ∧
      ∀ n ∈ u.contracts_names,
        lookupA (load_unit_json uj).1.contracts_filenames n
          = lookupA u.contracts_filenames n ∧
        lookupA (load_unit_json uj).1.abis n = lookupA u.abis n ∧
        lookupA (load_unit_json uj).1.bytecodes_init n
          = lookupA u.bytecodes_init n ∧
        lookupA (load_unit_json uj).1.bytecodes_runtime n
          = lookupA u.bytecodes_runtime n ∧
        lookupA (load_unit_json uj).1.srcmaps_init n
          = lookupA u.srcmaps_init n ∧
        lookupA (load_unit_json uj).1.srcmaps_runtime n
          = lookupA u.srcmaps_runtime n := by
  obtain ⟨contracts, hexp, himp⟩ :=
    c1_fold_import S u u.contracts_names hnd hwfn
  obtain ⟨u', deps, hfold, hnames, hasts, hcv', hpos, _⟩ :=
    himp { CompilationUnit.empty with
      compiler_version := some ⟨cv.compiler, cv.version, cv.optimized⟩ }
  have hload : load_unit_json (Json.obj
      [("compiler", Json.obj
          [("compiler", cv.compiler), ("version", cv.version),
           ("optimized", cv.optimized)]),
       ("asts", u.asts),
       ("contracts", Json.obj contracts)])
      = ({ u' with asts := u.asts }, deps, none) := by
    have hstd : load_contract_std = load_contract_legacy := rfl
    unfold load_unit_json
    rw [hstd]
    simp only [Json.getVal, Json.getFields,
      show (Json.obj
        [("compiler", Json.obj
            [("compiler", cv.compiler), ("version", cv.version),
             ("optimized", cv.optimized)]),
         ("asts", u.asts),
         ("contracts", Json.obj contracts)]).lookup "compiler"
        = some (Json.obj
            [("compiler", cv.compiler), ("version", cv.version),
             ("optimized", cv.optimized)]) from rfl,
      show (Json.obj
        [("compiler", cv.compiler), ("version", cv.version),
         ("optimized", cv.optimized)]).lookup "compiler"
        = some cv.compiler from rfl,
      show (Json.obj
        [("compiler", cv.compiler), ("version", cv.version),
         ("optimized", cv.optimized)]).lookup "version"
        = some cv.version from rfl,
      show (Json.obj
        [("compiler", cv.compiler), ("version", cv.version),
         ("optimized", cv.optimized)]).lookup "optimized"
        = some cv.optimized from rfl,
      show (Json.obj
        [("compiler", Json.obj
            [("compiler", cv.compiler), ("version", cv.version),
             ("optimized", cv.optimized)]),
         ("asts", u.asts),
         ("contracts", Json.obj contracts)]).lookup "contracts"
        = some (Json.obj contracts) from rfl]
    simp only [hfold]
    simp only [show (Json.obj
        [("compiler", Json.obj
            [("compiler", cv.compiler), ("version", cv.version),
             ("optimized", cv.optimized)]),
         ("asts", u.asts),
         ("contracts", Json.obj contracts)]).lookup "asts"
        = some u.asts from rfl]
  refine ⟨Json.obj
      [("compiler", Json.obj
          [("compiler", cv.compiler), ("version", cv.version),
           ("optimized", cv.optimized)]),
       ("asts", u.asts),
       ("contracts", Json.obj contracts)], ?_, ?_, ?_, ?_, ?_, ?_⟩
  · unfold export_unit
    simp only [hexp, hcv]
  · rw [hload]
  · rw [hload]
    show u'.contracts_names = u.contracts_names
    rw [hnames]
    have := foldl_addSet_of_nodup u.contracts_names [] hnd (by simp)
    simpa using this
  · rw [hload]
  · rw [hload]
    show u'.compiler_version = u.compiler_version
    rw [hcv', hcv]
  · intro n hn
    rw [hload]
    exact hpos n hn

/-! ## Claim theorems -/

/-- C3: in an imported document, a contract whose `is_dependency` flag is
truthy contributes all four of its filename view strings to the session's
dependency set — on either schema path — and every member of the
dependency set after import was either already present or is a filename
view of some contract with a truthy flag, so a contract with a false flag
contributes none of its views. -/
theorem c3_dependency_propagation (s : Session) (doc : Json)
    (hok : (load_from_compile s doc).2.isOk = true) :
    (∀ cus k cuj centries n c fns a r sh us abi bin binr sm smr libs dep,
      doc.lookup "compilation_units" = some (Json.obj cus) →
      (k, cuj) ∈ cus →
      cuj.getFields "contracts" = .ok centries →
      (n, c) ∈ centries →
      c.lookup "filenames" = some fns →
      fns.lookup "absolute" = some (.str a) →
      fns.lookup "relative" = some (.str r) →
      fns.lookup "short" = some (.str sh) →
      fns.lookup "used" = some (.str us) →
      c.lookup "abi" = some abi →
      c.lookup "bin" = some bin →
      c.lookup "bin-runtime" = some binr →
      c.lookup "srcmap" = some (.str sm) →
      c.lookup "srcmap-runtime" = some (.str smr) →
      c.lookup "libraries" = some libs →
      c.lookup "is_dependency" = some dep →
      dep.truthy = true →
      (a ∈ (load_from_compile s doc).1.dependencies ∧
       r ∈ (load_from_compile s doc).1.dependencies ∧
       sh ∈ (load_from_compile s doc).1.dependencies ∧
       us ∈ (load_from_compile s doc).1.dependencies)) ∧
    (∀ centries n c fns a r sh us abi bin binr sm smr libs dep,
      doc.lookup "compilation_units" = none →
      doc.getFields "contracts" = .ok centries →
      (n, c) ∈ centries →
      c.lookup "filenames" = some fns →
      fns.lookup "absolute" = some (.str a) →
      fns.lookup "relative" = some (.str r) →
      fns.lookup "short" = some (.str sh) →
      fns.lookup "used" = some (.str us) →
      c.lookup "abi" = some abi →
      c.lookup "bin" = some bin →
      c.lookup "bin-runtime" = some binr →
      c.lookup "srcmap" = some (.str sm) →
      c.lookup "srcmap-runtime" = some (.str smr) →
      c.lookup "libraries" = some libs →
      c.lookup "is_dependency" = some dep →
      dep.truthy = true →
      (a ∈ (load_from_compile s doc).1.dependencies ∧
       r ∈ (load_from_compile s doc).1.dependencies ∧
       sh ∈ (load_from_compile s doc).1.dependencies ∧
       us ∈ (load_from_compile s doc).1.dependencies)) ∧
    (∀ x, x ∈ (load_from_compile s doc).1.dependencies →
      x ∈ s.dependencies ∨
      ∃ n c fns a r sh us dep,
        c.lookup "filenames" = some fns ∧
        fns.lookup "absolute" = some (.str a) ∧
        fns.lookup "relative" = some (.str r) ∧
        fns.lookup "short" = some (.str sh) ∧
        fns.lookup "used" = some (.str us) ∧
        c.lookup "is_dependency" = some dep ∧
        dep.truthy = true ∧ (x = a ∨ x = r ∨ x = sh ∨ x = us) ∧
        ((doc.lookup "compilation_units" = none ∧
          ∃ centries, doc.getFields "contracts" = .ok centries ∧
            (n, c) ∈ centries) ∨
         (∃ cus k cuj centries,
           doc.lookup "compilation_units" = some (Json.obj cus) ∧
           (k, cuj) ∈ cus ∧
           cuj.getFields "contracts" = .ok centries ∧
           (n, c) ∈ centries))) := by
  obtain ⟨hdeps, hbr⟩ := load_from_compile_deps s doc
  have hbr' := hbr hok
  refine ⟨?_, ?_, ?_⟩
  · intro cus k cuj centries n c fns a r sh us abi bin binr sm smr libs dep
      hcu hk hcf hnc h1 h2 h3 h4 h5 h6 h7 h8 h9 h10 h11 h12 htruthy
    simp only [hcu] at hdeps hbr'
    have huok := load_units_fold_ok_units cus _ k cuj hk hbr'
    obtain ⟨V, cc, vv, oo, entries', _, _, _, _, hcf', hfok, hpass⟩ :=
      load_unit_json_ok_decomp cuj huok
    rw [hcf] at hcf'
    injection hcf' with hent
    subst hent
    have hstep : ∀ u', (load_contract_legacy u' n c).2.1 = [a, r, sh, us] := by
      intro u'
      rw [load_contract_legacy_spec u' n c fns a r sh us abi bin binr sm smr
        libs dep h1 h2 h3 h4 h5 h6 h7 h8 h9 h10 h11 h12]
      simp [htruthy]
    have hsub := load_contracts_fold_deps_sub centries _ n c [a, r, sh, us]
      hnc hstep hfok
    have hin : ∀ x ∈ ([a, r, sh, us] : List String),
        x ∈ (load_from_compile s doc).1.dependencies := by
      intro x hx
      rw [hdeps]
      exact load_units_fold_deps_sub cus _ k cuj hk hbr' x
        (by rw [hpass]; exact hsub x hx)
    exact ⟨hin a (by simp), hin r (by simp), hin sh (by simp), hin us (by simp)⟩
  · intro centries n c fns a r sh us abi bin binr sm smr libs dep
      hcu hcf hnc h1 h2 h3 h4 h5 h6 h7 h8 h9 h10 h11 h12 htruthy
    simp only [hcu] at hdeps hbr'
    obtain ⟨A, V, cc, vv, oo, entries', _, _, _, _, _, hcf', hlegeq⟩ :=
      load_from_compile_legacy_ok_decomp doc hbr'
    rw [hcf] at hcf'
    injection hcf' with hent
    subst hent
    have hfok : (load_contracts_fold load_contract_legacy
        { CompilationUnit.empty with
            asts := A, compiler_version := some ⟨cc, vv, oo⟩ }
        centries).2.2 = none := by
      rw [hlegeq] at hbr'
      exact hbr'
    have hstep : ∀ u', (load_contract_legacy u' n c).2.1 = [a, r, sh, us] := by
      intro u'
      rw [load_contract_legacy_spec u' n c fns a r sh us abi bin binr sm smr
        libs dep h1 h2 h3 h4 h5 h6 h7 h8 h9 h10 h11 h12]
      simp [htruthy]
    have hsub := load_contracts_fold_deps_sub centries _ n c [a, r, sh, us]
      hnc hstep hfok
    have hin : ∀ x ∈ ([a, r, sh, us] : List String),
        x ∈ (load_from_compile s doc).1.dependencies := by
      intro x hx
      rw [hdeps]
      apply (mem_addAllSet_iff _ _ _).mpr
      right
      rw [hlegeq]
      exact hsub x hx
    exact ⟨hin a (by simp), hin r (by simp), hin sh (by simp), hin us (by simp)⟩
  · intro x hx
    rw [hdeps] at hx
    cases hcu : doc.lookup "compilation_units" with
    | none =>
      simp only [hcu] at hx hbr'
      rcases (mem_addAllSet_iff _ _ _).mp hx with hx' | hx'
      · exact Or.inl hx'
      · obtain ⟨A, V, cc, vv, oo, entries', _, _, _, _, _, hcf', hlegeq⟩ :=
          load_from_compile_legacy_ok_decomp doc hbr'
        rw [hlegeq] at hx'
        obtain ⟨n, c, u', hnc, hm⟩ :=
          load_contracts_fold_deps_inv entries' _ x hx'
        obtain ⟨fns, a, r, sh, us, dep, g1, g2, g3, g4, g5, g6, g7, g8⟩ :=
          load_contract_legacy_deps_inv u' n c x hm
        exact Or.inr ⟨n, c, fns, a, r, sh, us, dep, g1, g2, g3, g4, g5, g6, g7,
          g8, Or.inl ⟨rfl, entries', hcf', hnc⟩⟩
    | some cus =>
      cases cus with
      | obj entries =>
        simp only [hcu] at hx hbr'
        rcases load_units_fold_deps_inv entries _ x hx with hx' | ⟨k, cuj, hk, hm⟩
        · exact Or.inl hx'
        · obtain ⟨centries, n, c, u', hcf, hnc, hm'⟩ :=
            load_unit_json_deps_inv cuj x hm
          obtain ⟨fns, a, r, sh, us, dep, g1, g2, g3, g4, g5, g6, g7, g8⟩ :=
            load_contract_legacy_deps_inv u' n c x hm'
          exact Or.inr ⟨n, c, fns, a, r, sh, us, dep, g1, g2, g3, g4, g5, g6,
            g7, g8, Or.inr ⟨entries, k, cuj, centries, rfl, hk, hcf, hnc⟩⟩
      | null => simp only [hcu] at hbr'
      | bool b => simp only [hcu] at hbr'
      | num m => simp only [hcu] at hbr'
      | str s0 => simp only [hcu] at hbr'
      | arr xs => simp only [hcu] at hbr'

/-- On a document without a `compilation_units` key, the loaded session's
unit map is the legacy unit registered under `"legacy"`, and a successful
load means the legacy populate raised nothing. -/
theorem load_from_compile_units_legacy (s : Session) (doc : Json)
    (hno : doc.lookup "compilation_units" = none) :
    (load_from_compile s doc).1.compilation_units
      = insertA s.compilation_units "legacy" (load_from_compile_legacy doc).1 ∧
    ((load_from_compile s doc).2.isOk = true →
      (load_from_compile_legacy doc).2.2 = none) := by
  unfold load_from_compile
  rcases hleg : load_from_compile_legacy doc with ⟨u, deps, err⟩
  simp only [hno, hleg]
  cases err with
  | some e => exact ⟨rfl, by intro h; simp [Except.isOk, Except.toBool] at h⟩
  | none =>
    refine ⟨?_, fun _ => rfl⟩
    cases hwd : doc.getVal "working_dir" with
    | error e => simp [hwd]
    | ok wd =>
      cases ht : doc.getVal "type" with
      | error e => simp [hwd, ht]
      | ok t => simp [hwd, ht]

/-- C8: a document whose top level lacks a `compilation_units` key imports
as exactly one compilation unit, registered in the session under the key
`"legacy"` and populated from the top-level `contracts` / `asts` /
`compiler` fields. -/
theorem c8_legacy_single_unit (doc A V c v o : Json)
    (entries : List (String × Json))
    (hno : doc.lookup "compilation_units" = none)
    (hA : doc.lookup "asts" = some A)
    (hV : doc.lookup "compiler" = some V)
    (hc : V.lookup "compiler" = some c)
    (hv : V.lookup "version" = some v)
    (ho : V.lookup "optimized" = some o)
    (hC : doc.lookup "contracts" = some (Json.obj entries))
    (hok : (load_from_compile emptyStandardSession doc).2.isOk = true) :
    ∃ u, (load_from_compile emptyStandardSession doc).1.compilation_units
          = [("legacy", u)] ∧
      u.asts = A ∧
      u.compiler_version = some ⟨c, v, o⟩ ∧
      u.contracts_names
        = entries.foldl (fun acc kv => addSet acc kv.1) [] := by
  obtain ⟨hunits, hok'⟩ := load_from_compile_units_legacy emptyStandardSession doc hno
  have hleg : load_from_compile_legacy doc
      = load_contracts_fold load_contract_legacy
          { CompilationUnit.empty with
              asts := A, compiler_version := some ⟨c, v, o⟩ } entries := by
    unfold load_from_compile_legacy
    simp only [Json.getVal, Json.getFields, hA, hV, hc, hv, ho, hC]
  have herr : (load_from_compile_legacy doc).2.2 = none := hok' hok
  rw [hleg] at herr hunits
  obtain ⟨hnames, hasts, hcv⟩ := load_contracts_fold_ok entries _ herr
  exact ⟨_, hunits, hasts, hcv, hnames⟩

/-- A concrete legacy artifact with no contracts, for the C8 witness. -/
def c8Doc : Json :=
  Json.obj
    [("asts", .str "AST"),
     ("compiler", Json.obj
        [("compiler", .str "solc"), ("version", .str "0.8.0"),
         ("optimized", .bool true)]),
     ("contracts", Json.obj []),
     ("working_dir", .str "/wd"),
     ("type", .num 5)]

/-- Witness for C8 at a concrete legacy document. -/
theorem c8_legacy_single_unit_witness :
    ∃ u, (load_from_compile emptyStandardSession c8Doc).1.compilation_units
          = [("legacy", u)] ∧
      u.asts = .str "AST" ∧
      u.compiler_version = some ⟨.str "solc", .str "0.8.0", .bool true⟩ ∧
      u.contracts_names
        = ([] : List (String × Json)).foldl (fun acc kv => addSet acc kv.1) [] :=
  c8_legacy_single_unit c8Doc (.str "AST")
    (Json.obj [("compiler", .str "solc"), ("version", .str "0.8.0"),
      ("optimized", .bool true)])
    (.str "solc") (.str "0.8.0") (.bool true) [] rfl rfl rfl rfl rfl rfl rfl
    (by rfl)

/-- A per-contract payload carrying every required key but neither
`userdoc` nor `devdoc`, for C10. -/
def c10Contract (a r sh us : String) (abi bin binr : Json) (sm smr : String)
    (libs : Json) (dep : Bool) : Json :=
  Json.obj
    [("filenames", Json.obj
        [("absolute", .str a), ("relative", .str r),
         ("short", .str sh), ("used", .str us)]),
     ("abi", abi), ("bin", bin), ("bin-runtime", binr),
     ("srcmap", .str sm), ("srcmap-runtime", .str smr),
     ("libraries", libs), ("is_dependency", .bool dep)]

def c10CompilerJson (c v o : Json) : Json :=
  Json.obj [("compiler", c), ("version", v), ("optimized", o)]

def c10LegacyDoc (name : String) (contract A c v o : Json) (wd : String)
    (t : Int) : Json :=
  Json.obj
    [("asts", A), ("compiler", c10CompilerJson c v o),
     ("contracts", Json.obj [(name, contract)]),
     ("working_dir", .str wd), ("type", .num t)]

def c10CurrentDoc (k name : String) (contract A c v o : Json) (wd : String)
    (t : Int) : Json :=
  Json.obj
    [("compilation_units", Json.obj
        [(k, Json.obj
            [("compiler", c10CompilerJson c v o), ("asts", A),
             ("contracts", Json.obj [(name, contract)])])]),
     ("working_dir", .str wd), ("type", .num t)]

/-- C10: a contract entry missing its `userdoc` and `devdoc` keys does not
make the import fail — both the legacy and the current-schema path
substitute an empty mapping for each missing bucket and build the
contract's `Natspec` from them. -/
theorem c10_natspec_defaults (k name a r sh us : String)
    (abi bin binr : Json) (sm smr : String) (libs A c v o : Json)
    (dep : Bool) (wd : String) (t : Int) :
    (load_from_compile emptyStandardSession
        (c10LegacyDoc name (c10Contract a r sh us abi bin binr sm smr libs dep)
          A c v o wd t)).2.isOk = true ∧
    (∃ u, lookupA (load_from_compile emptyStandardSession
          (c10LegacyDoc name (c10Contract a r sh us abi bin binr sm smr libs dep)
            A c v o wd t)).1.compilation_units "legacy" = some u ∧
      lookupA u.natspec name = some ⟨Json.obj [], Json.obj []⟩) ∧
    (load_from_compile emptyStandardSession
        (c10CurrentDoc k name (c10Contract a r sh us abi bin binr sm smr libs dep)
          A c v o wd t)).2.isOk = true ∧
    (∃ u, lookupA (load_from_compile emptyStandardSession
          (c10CurrentDoc k name (c10Contract a r sh us abi bin binr sm smr libs dep)
            A c v o wd t)).1.compilation_units k = some u ∧
      lookupA u.natspec name = some ⟨Json.obj [], Json.obj []⟩) := by
  set contract := c10Contract a r sh us abi bin binr sm smr libs dep with hcdef
  have hstep : ∀ u0 : CompilationUnit,
      load_contract_legacy u0 name contract =
        ({ u0 with
            contracts_names := addSet u0.contracts_names name,
            contracts_filenames :=
              insertA u0.contracts_filenames name (.fn ⟨a, r, sh, us⟩),
            abis := insertA u0.abis name abi,
            bytecodes_init := insertA u0.bytecodes_init name bin,
            bytecodes_runtime := insertA u0.bytecodes_runtime name binr,
            srcmaps_init := insertA u0.srcmaps_init name (pySplitSemi sm),
            srcmaps_runtime := insertA u0.srcmaps_runtime name (pySplitSemi smr),
            libraries := insertA u0.libraries name libs,
            natspec := insertA u0.natspec name ⟨Json.obj [], Json.obj []⟩ },
          (if (Json.bool dep).truthy then [a, r, sh, us] else []), none) := by
    intro u0
    have h := load_contract_legacy_spec u0 name contract
      (Json.obj [("absolute", .str a), ("relative", .str r),
        ("short", .str sh), ("used", .str us)])
      a r sh us abi bin binr sm smr libs (.bool dep)
      rfl rfl rfl rfl rfl rfl rfl rfl rfl rfl rfl rfl
    rw [h]
    rfl
  have hfold : ∀ u0 : CompilationUnit,
      load_contracts_fold load_contract_legacy u0 [(name, contract)] =
        ({ u0 with
            contracts_names := addSet u0.contracts_names name,
            contracts_filenames :=
              insertA u0.contracts_filenames name (.fn ⟨a, r, sh, us⟩),
            abis := insertA u0.abis name abi,
            bytecodes_init := insertA u0.bytecodes_init name bin,
            bytecodes_runtime := insertA u0.bytecodes_runtime name binr,
            srcmaps_init := insertA u0.srcmaps_init name (pySplitSemi sm),
            srcmaps_runtime := insertA u0.srcmaps_runtime name (pySplitSemi smr),
            libraries := insertA u0.libraries name libs,
            natspec := insertA u0.natspec name ⟨Json.obj [], Json.obj []⟩ },
          (if (Json.bool dep).truthy then [a, r, sh, us] else []), none) := by
    intro u0
    simp only [load_contracts_fold, hstep u0, List.append_nil]
  have hleg : load_from_compile_legacy (c10LegacyDoc name contract A c v o wd t)
      = load_contracts_fold load_contract_legacy
          { CompilationUnit.empty with
              asts := A, compiler_version := some ⟨c, v, o⟩ }
          [(name, contract)] := rfl
  have hcuj : load_unit_json (Json.obj
        [("compiler", c10CompilerJson c v o), ("asts", A),
         ("contracts", Json.obj [(name, contract)])])
      = (let p := load_contracts_fold load_contract_legacy
            { CompilationUnit.empty with compiler_version := some ⟨c, v, o⟩ }
            [(name, contract)]
         ({ p.1 with asts := A }, p.2.1, p.2.2)) := by
    have hstd : load_contract_std = load_contract_legacy := rfl
    unfold load_unit_json
    simp only [show (Json.obj
        [("compiler", c10CompilerJson c v o), ("asts", A),
         ("contracts", Json.obj [(name, contract)])]).getVal "compiler"
        = .ok (c10CompilerJson c v o) from rfl]
    simp only [show (c10CompilerJson c v o).getVal "compiler" = .ok c from rfl,
      show (c10CompilerJson c v o).getVal "version" = .ok v from rfl,
      show (c10CompilerJson c v o).getVal "optimized" = .ok o from rfl]
    simp only [show (Json.obj
        [("compiler", c10CompilerJson c v o), ("asts", A),
         ("contracts", Json.obj [(name, contract)])]).getFields "contracts"
        = .ok [(name, contract)] from rfl]
    simp only [hstd, hfold]
    rfl
  refine ⟨?_, ?_, ?_, ?_⟩
  · unfold load_from_compile
    simp only [show (c10LegacyDoc name contract A c v o wd t).lookup
        "compilation_units" = none from rfl, hleg, hfold]
    simp only [show (c10LegacyDoc name contract A c v o wd t).getVal
        "working_dir" = .ok (.str wd) from rfl,
      show (c10LegacyDoc name contract A c v o wd t).getVal "type"
        = .ok (.num t) from rfl]
    rfl
  · obtain ⟨hunits, _⟩ := load_from_compile_units_legacy emptyStandardSession
      (c10LegacyDoc name contract A c v o wd t) rfl
    rw [hleg, hfold] at hunits
    apply Exists.intro
    constructor
    · rw [hunits]
      exact lookupA_insertA_self [] "legacy" _
    · exact lookupA_insertA_self [] name _
  · unfold load_from_compile
    simp only [show (c10CurrentDoc k name contract A c v o wd t).lookup
        "compilation_units" = some (Json.obj
          [(k, Json.obj
              [("compiler", c10CompilerJson c v o), ("asts", A),
               ("contracts", Json.obj [(name, contract)])])]) from rfl]
    simp only [load_units_fold, hcuj, hfold]
    simp only [show (c10CurrentDoc k name contract A c v o wd t).getVal
        "working_dir" = .ok (.str wd) from rfl,
      show (c10CurrentDoc k name contract A c v o wd t).getVal "type"
        = .ok (.num t) from rfl]
    rfl
  · unfold load_from_compile
    simp only [show (c10CurrentDoc k name contract A c v o wd t).lookup
        "compilation_units" = some (Json.obj
          [(k, Json.obj
              [("compiler", c10CompilerJson c v o), ("asts", A),
               ("contracts", Json.obj [(name, contract)])])]) from rfl]
    simp only [load_units_fold, hcuj, hfold]
    simp only [show (c10CurrentDoc k name contract A c v o wd t).getVal
        "working_dir" = .ok (.str wd) from rfl,
      show (c10CurrentDoc k name contract A c v o wd t).getVal "type"
        = .ok (.num t) from rfl]
    apply Exists.intro
    constructor
    · exact lookupA_insertA_self [] k _
    · exact lookupA_insertA_self [] name _

/-- A legacy artifact with top-level `contracts`/`asts`/`compiler`. -/
def c2LegacyDoc (C A V wd t : Json) : Json :=
  Json.obj
    [("contracts", C), ("asts", A), ("compiler", V),
     ("working_dir", wd), ("type", t)]

/-- A current-schema artifact with one unit holding the same payload. -/
def c2CurrentDoc (k : String) (C A V wd t : Json) : Json :=
  Json.obj
    [("compilation_units", Json.obj
        [(k, Json.obj [("compiler", V), ("asts", A), ("contracts", C)])]),
     ("working_dir", wd), ("type", t)]

/-- C2: a legacy document and a single-unit current-schema document
holding the same `contracts`/`asts`/`compiler` payload import
equivalently — when the legacy import succeeds, the current-schema import
succeeds, both register the *same* compilation-unit value (under
`"legacy"` and under the unit's own key, respectively) and produce the
same dependency set. -/
theorem c2_legacy_equivalence (s : Session) (C A V wd t : Json) (k : String)
    (hok1 : (load_from_compile s (c2LegacyDoc C A V wd t)).2.isOk = true) :
    (load_from_compile s (c2CurrentDoc k C A V wd t)).2.isOk = true ∧
    ∃ u,
      (load_from_compile s (c2LegacyDoc C A V wd t)).1.compilation_units
        = insertA s.compilation_units "legacy" u ∧
      (load_from_compile s (c2CurrentDoc k C A V wd t)).1.compilation_units
        = insertA s.compilation_units k u ∧
      (load_from_compile s (c2LegacyDoc C A V wd t)).1.dependencies
        = (load_from_compile s (c2CurrentDoc k C A V wd t)).1.dependencies := by
  obtain ⟨hunits1, hokleg⟩ := load_from_compile_units_legacy s
    (c2LegacyDoc C A V wd t) rfl
  have herr1 := hokleg hok1
  obtain ⟨A', V', cc, vv, oo, entries', hA', hV', hc', hv', ho', hcf', hlegeq⟩ :=
    load_from_compile_legacy_ok_decomp _ herr1
  have hAA : some A = some A' :=
    (rfl : (c2LegacyDoc C A V wd t).lookup "asts" = some A).symm.trans hA'
  injection hAA with hAA
  subst hAA
  have hVV : some V = some V' :=
    (rfl : (c2LegacyDoc C A V wd t).lookup "compiler" = some V).symm.trans hV'
  injection hVV with hVV
  subst hVV
  have hCC : some C = some (Json.obj entries') :=
    (rfl : (c2LegacyDoc C A V wd t).lookup "contracts" = some C).symm.trans
      (Json.getFields_ok_inv _ _ _ hcf')
  injection hCC with hCC
  subst hCC
  -- the two contract loops differ only in the unit's asts field
  have hparam := load_contracts_fold_asts_param entries'
    { CompilationUnit.empty with compiler_version := some ⟨cc, vv, oo⟩ } A
  have hfoldC_err : (load_contracts_fold load_contract_legacy
      { CompilationUnit.empty with compiler_version := some ⟨cc, vv, oo⟩ }
      entries').2.2 = none := by
    rw [hlegeq, hparam] at herr1
    exact herr1
  -- the current-schema per-unit load on the wrapped payload
  have hunit : load_unit_json
      (Json.obj [("compiler", V), ("asts", A), ("contracts", Json.obj entries')])
      = ({ (load_contracts_fold load_contract_legacy
              { CompilationUnit.empty with compiler_version := some ⟨cc, vv, oo⟩ }
              entries').1 with asts := A },
         (load_contracts_fold load_contract_legacy
            { CompilationUnit.empty with compiler_version := some ⟨cc, vv, oo⟩ }
            entries').2.1, none) := by
    have hstd : load_contract_std = load_contract_legacy := rfl
    unfold load_unit_json
    rw [hstd]
    simp only [Json.getVal, Json.getFields,
      show (Json.obj [("compiler", V), ("asts", A),
        ("contracts", Json.obj entries')]).lookup "compiler" = some V from rfl,
      hc', hv', ho',
      show (Json.obj [("compiler", V), ("asts", A),
        ("contracts", Json.obj entries')]).lookup "contracts"
        = some (Json.obj entries') from rfl]
    rcases hfoldC : load_contracts_fold load_contract_legacy
        { CompilationUnit.empty with compiler_version := some ⟨cc, vv, oo⟩ }
        entries' with ⟨uC, dC, eC⟩
    rw [hfoldC] at hfoldC_err
    simp only [hfoldC]
    cases eC with
    | some e => simp at hfoldC_err
    | none =>
      simp only [show (Json.obj [("compiler", V), ("asts", A),
        ("contracts", Json.obj entries')]).lookup "asts" = some A from rfl]
  obtain ⟨hunits2, _⟩ := load_from_compile_units_current_single s
    (c2CurrentDoc k (Json.obj entries') A V wd t) k
    (Json.obj [("compiler", V), ("asts", A), ("contracts", Json.obj entries')])
    rfl
  have hok2 : (load_from_compile s
      (c2CurrentDoc k (Json.obj entries') A V wd t)).2.isOk = true := by
    unfold load_from_compile
    simp only [show (c2CurrentDoc k (Json.obj entries') A V wd t).lookup
        "compilation_units" = some (Json.obj
          [(k, Json.obj [("compiler", V), ("asts", A),
            ("contracts", Json.obj entries')])]) from rfl,
      load_units_fold, hunit]
    simp only [show (c2CurrentDoc k (Json.obj entries') A V wd t).getVal
        "working_dir" = .ok wd from rfl,
      show (c2CurrentDoc k (Json.obj entries') A V wd t).getVal "type"
        = .ok t from rfl]
    rfl
  obtain ⟨hdeps1, _⟩ := load_from_compile_deps s (c2LegacyDoc (Json.obj entries') A V wd t)
  obtain ⟨hdeps2, _⟩ := load_from_compile_deps s (c2CurrentDoc k (Json.obj entries') A V wd t)
  simp only [show (c2LegacyDoc (Json.obj entries') A V wd t).lookup
      "compilation_units" = none from rfl] at hdeps1
  simp only [show (c2CurrentDoc k (Json.obj entries') A V wd t).lookup
      "compilation_units" = some (Json.obj
        [(k, Json.obj [("compiler", V), ("asts", A),
          ("contracts", Json.obj entries')])]) from rfl,
    load_units_fold, hunit] at hdeps2
  refine ⟨hok2,
    { (load_contracts_fold load_contract_legacy
        { CompilationUnit.empty with compiler_version := some ⟨cc, vv, oo⟩ }
        entries').1 with asts := A }, ?_, ?_, ?_⟩
  · rw [hunits1, hlegeq, hparam]
  · rw [hunits2, hunit]
  · rw [hdeps1, hdeps2, hlegeq, hparam]

/-- The parsed `Combined-Json.json` of a Waffle build whose one contract
lives under `node_modules`, for the C1 counterexample. -/
def c1TargetAll : Json :=
  Json.obj
    [("contracts", Json.obj
        [("node_modules/pkg/Dep.sol:Dep", Json.obj
            [("abi", Json.arr []),
             ("evm", Json.obj
                [("bytecode", Json.obj
                    [("object", .str "60"), ("sourceMap", .str "1:2:3")]),
                 ("deployedBytecode", Json.obj
                    [("object", .str "61"), ("sourceMap", .str "4:5:6")])])])]),
     ("sources", Json.obj
        [("node_modules/pkg/Dep.sol", Json.obj [("AST", .str "ast1")])])]

/-- The fresh session a Waffle run starts from: empty state, the Waffle
platform's predicate, tag and guessed tests. -/
def c1WaffleSession0 : Session :=
  ⟨[], [], [], none, .str "/proj", waffle_is_dependency,
   PlatformType.WAFFLE.toInt, ["npx mocha"]⟩

/-- The session the Waffle adapter run produces on `c1TargetAll`. -/
def c1Session : Session :=
  (waffle_compile_core c1WaffleSession0 "/proj" (.str "native")
    (.str "0.8.0") c1TargetAll).1

/-- C1 (counterexample): on a session produced by a successful Waffle
adapter run, `import(export(S))` is *not* equal to `S` on dependency-set
membership — the run's session has an empty dependency set and classifies
the short view `pkg/Dep.sol` as not a dependency, while the re-imported
session holds all the contract's filename views in its dependency set
(the export recorded `is_dependency` from the platform predicate on the
absolute path, and the import expands it to all four views). -/
theorem c1_round_trip_counterexample :
    (waffle_compile_core c1WaffleSession0 "/proj" (.str "native")
        (.str "0.8.0") c1TargetAll).2 = none ∧
    c1Session.dependencies = [] ∧
    c1Session.is_dependency "pkg/Dep.sol" = false ∧
    ∃ doc, generate_standard_export c1Session = .ok doc ∧
      (load_from_compile emptyStandardSession doc).2.isOk = true ∧
      (load_from_compile emptyStandardSession doc).1.dependencies
        ≠ c1Session.dependencies ∧
      (load_from_compile emptyStandardSession doc).1.is_dependency
        "pkg/Dep.sol" = true := by
  refine ⟨rfl, rfl, rfl, _, rfl, rfl, by decide, rfl⟩

/-- The top-level document shape `generate_standard_export` emits (lines
180–186), given the exported units. -/
def standardDoc (S : Session) (docUnits : List (String × Json)) : Json :=
  Json.obj
    [("compilation_units", Json.obj docUnits),
     ("package", S.package_name.getD Json.null),
     ("working_dir", .str (pyStr S.working_dir)),
     ("type", .num S.platform_type),
     ("unit_tests", Json.arr (S.guessed_tests.map Json.str))]

/-- C1 (amended): for every session of a successful adapter run — unit
keys distinct, each unit carrying a compiler version and complete
per-contract mappings whose source maps are `";"`-splits — importing the
exported document yields a session equal to the original on every unit's
contract-name set, per-contract ABI, init and runtime bytecode, init and
runtime source-map segment sequences, all four views of every contract's
`Filename`, the compiler version triple, and the AST content.  (The
original claim's remaining component, dependency-set membership, fails
and is dropped; the counterexample shows the imported dependency set
instead holds all four views of every contract the exporting session's
platform classified as a dependency.) -/
theorem c1_round_trip_amended (S : Session)
    (hkeys : (S.compilation_units.map Prod.fst).Nodup)
    (hwf : ∀ k u, (k, u) ∈ S.compilation_units →
      (∃ cv, u.compiler_version = some cv) ∧
      u.contracts_names.Nodup ∧
      ∀ n ∈ u.contracts_names, contractComplete u n) :
    ∃ doc, generate_standard_export S = .ok doc ∧
      (load_from_compile emptyStandardSession doc).2.isOk = true ∧
      ∀ k u, (k, u) ∈ S.compilation_units →
        ∃ u', lookupA (load_from_compile emptyStandardSession
              doc).1.compilation_units k = some u' ∧
          u'.contracts_names = u.contracts_names ∧
          u'.asts = u.asts ∧
          u'.compiler_version = u.compiler_version ∧
          ∀ n ∈ u.contracts_names,
            lookupA u'.contracts_filenames n = lookupA u.contracts_filenames n ∧
            lookupA u'.abis n = lookupA u.abis n ∧
            lookupA u'.bytecodes_init n = lookupA u.bytecodes_init n ∧
            lookupA u'.bytecodes_runtime n = lookupA u.bytecodes_runtime n ∧
            lookupA u'.srcmaps_init n = lookupA u.srcmaps_init n ∧
            lookupA u'.srcmaps_runtime n = lookupA u.srcmaps_runtime n := by
  obtain ⟨docUnits, hexpfold, hkeysmap, hfwd, hbwd⟩ :=
    export_units_fold_ok S S.compilation_units (by
      intro k u hm
      obtain ⟨⟨cv, hcv⟩, hnd, hwfn⟩ := hwf k u hm
      obtain ⟨uj, hexp, _⟩ := c1_unit_import S u cv hcv hnd hwfn
      exact ⟨uj, hexp⟩)
  have hujok : ∀ k uj, (k, uj) ∈ docUnits →
      (load_unit_json uj).2.2 = none := by
    intro k uj hm
    obtain ⟨u, hmu, hexp⟩ := hbwd k uj hm
    obtain ⟨⟨cv, hcv⟩, hnd, hwfn⟩ := hwf k u hmu
    obtain ⟨uj', hexp', hok', _⟩ := c1_unit_import S u cv hcv hnd hwfn
    rw [hexp'] at hexp
    injection hexp with he
    rw [← he]
    exact hok'
  have hgen : generate_standard_export S = .ok (standardDoc S docUnits) := by
    unfold generate_standard_export standardDoc
    simp only [hexpfold]
  have hfoldok : (load_units_fold
      { emptyStandardSession with
          package_name := (standardDoc S docUnits).lookup "package" }
      docUnits).2 = none :=
    load_units_fold_ok_of docUnits _ hujok
  have hok : (load_from_compile emptyStandardSession
      (standardDoc S docUnits)).2.isOk = true := by
    unfold load_from_compile
    simp only [show (standardDoc S docUnits).lookup "compilation_units"
        = some (Json.obj docUnits) from rfl]
    rcases hfold2 : load_units_fold
        { emptyStandardSession with
            package_name := (standardDoc S docUnits).lookup "package" }
        docUnits with ⟨s', err⟩
    rw [hfold2] at hfoldok
    simp only at hfoldok
    subst hfoldok
    simp only [hfold2]
    simp only [show (standardDoc S docUnits).getVal "working_dir"
        = .ok (.str (pyStr S.working_dir)) from rfl,
      show (standardDoc S docUnits).getVal "type"
        = .ok (.num S.platform_type) from rfl]
    rfl
  obtain ⟨hunitseq, _⟩ := load_from_compile_units_current emptyStandardSession
    (standardDoc S docUnits) docUnits rfl
  refine ⟨standardDoc S docUnits, hgen, hok, ?_⟩
  intro k u hm
  obtain ⟨uj, hmju, hexp⟩ := hfwd k u hm
  obtain ⟨⟨cv, hcv⟩, hnd, hwfn⟩ := hwf k u hm
  obtain ⟨uj', hexp', hok', hn', ha', hc', hp'⟩ :=
    c1_unit_import S u cv hcv hnd hwfn
  rw [hexp'] at hexp
  injection hexp with he
  subst he
  have hdnodup : (docUnits.map Prod.fst).Nodup := by
    rw [hkeysmap]; exact hkeys
  have hlook := load_units_fold_lookup docUnits _ k uj' hdnodup hmju hfoldok
  rw [hunitseq]
  exact ⟨(load_unit_json uj').1, hlook, hn', ha', hc', hp'⟩

/-- The unit the Waffle run of `c1Session` produced. -/
def c1Unit : CompilationUnit :=
  (lookupA c1Session.compilation_units "/proj").getD CompilationUnit.empty

/-- Witness for C1 (amended), at the concrete Waffle-produced session. -/
theorem c1_round_trip_amended_witness :
    ∃ doc, generate_standard_export c1Session = .ok doc ∧
      (load_from_compile emptyStandardSession doc).2.isOk = true ∧
      ∀ k u, (k, u) ∈ c1Session.compilation_units →
        ∃ u', lookupA (load_from_compile emptyStandardSession
              doc).1.compilation_units k = some u' ∧
          u'.contracts_names = u.contracts_names ∧
          u'.asts = u.asts ∧
          u'.compiler_version = u.compiler_version ∧
          ∀ n ∈ u.contracts_names,
            lookupA u'.contracts_filenames n = lookupA u.contracts_filenames n ∧
            lookupA u'.abis n = lookupA u.abis n ∧
            lookupA u'.bytecodes_init n = lookupA u.bytecodes_init n ∧
            lookupA u'.bytecodes_runtime n = lookupA u.bytecodes_runtime n ∧
            lookupA u'.srcmaps_init n = lookupA u.srcmaps_init n ∧
            lookupA u'.srcmaps_runtime n = lookupA u.srcmaps_runtime n := by
  apply c1_round_trip_amended c1Session
  · decide
  · intro k u hm
    rw [show c1Session.compilation_units = [("/proj", c1Unit)] from rfl] at hm
    have heq := List.mem_singleton.mp hm
    injection heq with hk hu
    subst hk; subst hu
    refine ⟨⟨⟨.str "native", .str "0.8.0", .null⟩, rfl⟩, by decide, ?_⟩
    intro n hn
    rw [show c1Unit.contracts_names = ["Dep"] from rfl] at hn
    have hn' := List.mem_singleton.mp hn
    subst hn'
    exact ⟨⟨⟨"/proj/node_modules/pkg/Dep.sol", "node_modules/pkg/Dep.sol",
        "pkg/Dep.sol", "node_modules/pkg/Dep.sol"⟩, rfl⟩,
      ⟨.arr [], rfl⟩, ⟨.str "60", rfl⟩, ⟨.str "61", rfl⟩,
      ⟨"1:2:3", rfl⟩, ⟨"4:5:6", rfl⟩, ⟨⟨Json.obj [], Json.obj []⟩, rfl⟩⟩

/-- C6: when every contract of a Dapp build output individually reports
an optimizer-enabled flag, the `optimized` field of the resulting
`CompilerVersion` is the logical OR of the reported flags. -/
theorem c6_optimizer_or_aggregation (s : Session) (target : String)
    (version : Json) (targets_json : Json) (files : List (String × Json))
    (flags : List Bool)
    (hfiles : targets_json.getFields "contracts" = .ok files)
    (hrep : dapp_reported_flags files = some flags)
    (hok : (dapp_compile_core s target version targets_json).2 = none) :
    ∃ u, lookupA (dapp_compile_core s target version
        targets_json).1.compilation_units target = some u ∧
      u.compiler_version = some ⟨.str "solc", version, .bool (flags.any id)⟩ := by
  unfold dapp_compile_core at hok ⊢
  simp only [hfiles] at hok ⊢
  rcases hff : dapp_files_fold files CompilationUnit.empty false
    with ⟨⟨u, optimized⟩, err⟩
  simp only [hff] at hok ⊢
  cases err with
  | some e => simp at hok
  | none =>
    have hopt := dapp_files_fold_opt files CompilationUnit.empty false flags
      hrep (by rw [hff])
    rw [hff] at hopt
    have hopt2 : optimized = flags.any id := by simpa using hopt
    cases hsrc : targets_json.getFields "sources" with
    | error e => simp [hsrc] at hok
    | ok sources =>
      simp only [hsrc] at hok ⊢
      rcases hsf : dapp_sources_fold target sources s u with ⟨⟨s', u'⟩, err'⟩
      simp only [hsf] at hok ⊢
      cases err' with
      | some e => simp at hok
      | none =>
        subst hopt2
        exact ⟨_, lookupA_insertA_self _ _ _, rfl⟩

/-- A contract build info reporting optimizer flag `b`, for the C6
witness. -/
def c6Info (b : Bool) : Json :=
  Json.obj
    [("metadata", Json.obj
        [("settings", Json.obj
            [("optimizer", Json.obj [("enabled", .bool b)])]),
         ("compiler", Json.obj [("version", .str "0.8.0")])]),
     ("abi", Json.arr []),
     ("evm", Json.obj
        [("bytecode", Json.obj
            [("object", .str "60"), ("sourceMap", .str "1:2:3")]),
         ("deployedBytecode", Json.obj [("object", .str "61")])])]

def c6TargetsJson : Json :=
  Json.obj
    [("contracts", Json.obj
        [("src/A.sol", Json.obj
            [("A", c6Info false), ("B", c6Info true), ("C", c6Info false)])]),
     ("sources", Json.obj [])]

/-- Witness for C6: three contracts reporting `false, true, false` yield a
unit-level `optimized` of `true`. -/
theorem c6_optimizer_or_aggregation_witness :
    ∃ u, lookupA (dapp_compile_core emptyStandardSession "/proj"
        (.str "0.8.0") c6TargetsJson).1.compilation_units "/proj" = some u ∧
      u.compiler_version
        = some ⟨.str "solc", .str "0.8.0",
            .bool ([false, true, false].any id)⟩ :=
  c6_optimizer_or_aggregation emptyStandardSession "/proj" (.str "0.8.0")
    c6TargetsJson _ [false, true, false] rfl rfl (by rfl)

/-- Witness for C2 at a concrete payload. -/
theorem c2_legacy_equivalence_witness :
    (load_from_compile emptyStandardSession
        (c2CurrentDoc "main" (Json.obj []) (.str "AST")
          (Json.obj [("compiler", .str "solc"), ("version", .str "0.8.0"),
            ("optimized", .null)]) (.str "/wd") (.num 5))).2.isOk = true ∧
    ∃ u,
      (load_from_compile emptyStandardSession
          (c2LegacyDoc (Json.obj []) (.str "AST")
            (Json.obj [("compiler", .str "solc"), ("version", .str "0.8.0"),
              ("optimized", .null)]) (.str "/wd")
            (.num 5))).1.compilation_units
        = insertA emptyStandardSession.compilation_units "legacy" u ∧
      (load_from_compile emptyStandardSession
          (c2CurrentDoc "main" (Json.obj []) (.str "AST")
            (Json.obj [("compiler", .str "solc"), ("version", .str "0.8.0"),
              ("optimized", .null)]) (.str "/wd")
            (.num 5))).1.compilation_units
        = insertA emptyStandardSession.compilation_units "main" u ∧
      (load_from_compile emptyStandardSession
          (c2LegacyDoc (Json.obj []) (.str "AST")
            (Json.obj [("compiler", .str "solc"), ("version", .str "0.8.0"),
              ("optimized", .null)]) (.str "/wd")
            (.num 5))).1.dependencies
        = (load_from_compile emptyStandardSession
            (c2CurrentDoc "main" (Json.obj []) (.str "AST")
              (Json.obj [("compiler", .str "solc"), ("version", .str "0.8.0"),
                ("optimized", .null)]) (.str "/wd")
              (.num 5))).1.dependencies :=
  c2_legacy_equivalence emptyStandardSession (Json.obj []) (.str "AST")
    (Json.obj [("compiler", .str "solc"), ("version", .str "0.8.0"),
      ("optimized", .null)]) (.str "/wd") (.num 5) "main" (by rfl)

/-- A two-unit artifact whose second unit's contract lacks its `abi` key,
for C4: unit `u1` is complete, unit `u2` is malformed. -/
def c4Doc : Json :=
  Json.obj
    [("compilation_units", Json.obj
        [("u1", Json.obj
            [("compiler", Json.obj
                [("compiler", .str "solc"), ("version", .str "0.8.0"),
                 ("optimized", .null)]),
             ("contracts", Json.obj
                [("Good", Json.obj
                    [("filenames", Json.obj
                        [("absolute", .str "/a/Good.sol"),
                         ("relative", .str "Good.sol"),
                         ("short", .str "Good.sol"),
                         ("used", .str "Good.sol")]),
                     ("abi", Json.arr []),
                     ("bin", .str "60"),
                     ("bin-runtime", .str "61"),
                     ("srcmap", .str "1:2:3"),
                     ("srcmap-runtime", .str "4:5:6"),
                     ("libraries", Json.obj []),
                     ("is_dependency", .bool false)])]),
             ("asts", Json.obj [])]),
         ("u2", Json.obj
            [("compiler", Json.obj
                [("compiler", .str "solc"), ("version", .str "0.8.0"),
                 ("optimized", .null)]),
             ("contracts", Json.obj
                [("Bad", Json.obj
                    [("filenames", Json.obj
                        [("absolute", .str "/a/Bad.sol"),
                         ("relative", .str "Bad.sol"),
                         ("short", .str "Bad.sol"),
                         ("used", .str "Bad.sol")])])]),
             ("asts", Json.obj [])])]),
     ("working_dir", .str "/a"),
     ("type", .num 5)]

/-- C4 (counterexample): importing `c4Doc` fails — with a key-lookup
error, the model of the `KeyError` the code raises, not a
`MalformedArtifactError`, which does not exist in this code — and yet the
complete unit `u1` (and the partially populated `u2`) from that document
remain in the session, so partial session state *is* retained. -/
theorem c4_malformed_counterexample :
    (load_from_compile emptyStandardSession c4Doc).2
        = .error (.keyError "abi") ∧
    (lookupA (load_from_compile emptyStandardSession c4Doc).1.compilation_units
        "u1").isSome = true ∧
    (lookupA (load_from_compile emptyStandardSession c4Doc).1.compilation_units
        "u2").isSome = true := by
  exact ⟨rfl, rfl, rfl⟩

/-- C4 (amended): a document lacking `working_dir`, or containing (on
either schema path) a contract entry lacking its `filenames` or `abi`
key, fails to import — the load raises a key-lookup error instead of
returning success; units populated before the failure stay in the session
(shown by the counterexample), rather than being discarded. -/
theorem c4_missing_key_amended (s : Session) (doc : Json) :
    (doc.lookup "working_dir" = none →
      (load_from_compile s doc).2.isOk = false) ∧
    (∀ cus k cuj centries n c,
      doc.lookup "compilation_units" = some (Json.obj cus) →
      (k, cuj) ∈ cus →
      cuj.getFields "contracts" = .ok centries →
      (n, c) ∈ centries →
      (c.lookup "filenames" = none ∨ c.lookup "abi" = none) →
      (load_from_compile s doc).2.isOk = false) ∧
    (∀ centries n c,
      doc.lookup "compilation_units" = none →
      doc.getFields "contracts" = .ok centries →
      (n, c) ∈ centries →
      (c.lookup "filenames" = none ∨ c.lookup "abi" = none) →
      (load_from_compile s doc).2.isOk = false) := by
  have hstep_err : ∀ (c : Json),
      (c.lookup "filenames" = none ∨ c.lookup "abi" = none) →
      ∀ u' n, (load_contract_legacy u' n c).2.2.isSome = true := by
    intro c hc u' n
    rcases hc with hc | hc
    · rw [load_contract_legacy_err_filenames u' n c hc]
      rfl
    · exact load_contract_legacy_err_abi u' n c hc
  refine ⟨?_, ?_, ?_⟩
  · intro hwd
    cases hok : (load_from_compile s doc).2.isOk with
    | false => rfl
    | true =>
      have := load_from_compile_ok_working_dir s doc hok
      rw [hwd] at this
      simp at this
  · intro cus k cuj centries n c hcu hk hcf hnc hmiss
    cases hok : (load_from_compile s doc).2.isOk with
    | false => rfl
    | true =>
      exfalso
      have hbr := (load_from_compile_deps s doc).2 hok
      simp only [hcu] at hbr
      have huok := load_units_fold_ok_units cus _ k cuj hk hbr
      obtain ⟨V, cc, vv, oo, entries', _, _, _, _, hcf', hfok, _⟩ :=
        load_unit_json_ok_decomp cuj huok
      rw [hcf] at hcf'
      injection hcf' with hent
      subst hent
      have herr := load_contracts_fold_err centries
        { CompilationUnit.empty with compiler_version := some ⟨cc, vv, oo⟩ }
        n c hnc (fun u' => hstep_err c hmiss u' n)
      rw [hfok] at herr
      simp at herr
  · intro centries n c hcu hcf hnc hmiss
    cases hok : (load_from_compile s doc).2.isOk with
    | false => rfl
    | true =>
      exfalso
      have hbr := (load_from_compile_deps s doc).2 hok
      simp only [hcu] at hbr
      obtain ⟨A, V, cc, vv, oo, entries', _, _, _, _, _, hcf', hlegeq⟩ :=
        load_from_compile_legacy_ok_decomp doc hbr
      rw [hcf] at hcf'
      injection hcf' with hent
      subst hent
      rw [hlegeq] at hbr
      have herr := load_contracts_fold_err centries
        { CompilationUnit.empty with
            asts := A, compiler_version := some ⟨cc, vv, oo⟩ }
        n c hnc (fun u' => hstep_err c hmiss u' n)
      rw [hbr] at herr
      simp at herr

/-- Witness for C4 (amended), at the counterexample document: unit `u2`'s
contract lacks `abi`, and the load indeed reports failure. -/
theorem c4_missing_key_amended_witness :
    (load_from_compile emptyStandardSession c4Doc).2.isOk = false := by
  have h := (c4_missing_key_amended emptyStandardSession c4Doc).2.1
    _ "u2" _ _ "Bad" _ rfl
    (List.mem_cons_of_mem _ (List.mem_cons_self _ _)) rfl
    (List.mem_cons_self _ _) (Or.inr rfl)
  exact h

/-- A current-schema artifact with one dependency contract, for the C3
witness (the spec's example views). -/
def c3Doc : Json :=
  Json.obj
    [("compilation_units", Json.obj
        [("u1", Json.obj
            [("compiler", Json.obj
                [("compiler", .str "solc"), ("version", .str "0.8.0"),
                 ("optimized", .null)]),
             ("contracts", Json.obj
                [("Dep", Json.obj
                    [("filenames", Json.obj
                        [("absolute", .str "/a/Dep.sol"),
                         ("relative", .str "lib/Dep.sol"),
                         ("short", .str "Dep.sol"),
                         ("used", .str "Dep.sol")]),
                     ("abi", Json.arr []),
                     ("bin", .str "60"),
                     ("bin-runtime", .str "61"),
                     ("srcmap", .str "1:2:3"),
                     ("srcmap-runtime", .str "4:5:6"),
                     ("libraries", Json.obj []),
                     ("is_dependency", .bool true)])]),
             ("asts", Json.obj [])])]),
     ("working_dir", .str "/a"),
     ("type", .num 5)]

/-- Witness for C3: importing `c3Doc` puts all four views of the flagged
contract into the dependency set. -/
theorem c3_dependency_propagation_witness :
    "/a/Dep.sol" ∈ (load_from_compile emptyStandardSession c3Doc).1.dependencies ∧
    "lib/Dep.sol" ∈ (load_from_compile emptyStandardSession c3Doc).1.dependencies ∧
    "Dep.sol" ∈ (load_from_compile emptyStandardSession c3Doc).1.dependencies := by
  have h := (c3_dependency_propagation emptyStandardSession c3Doc rfl).1
    _ "u1" _ _ "Dep" _ _ "/a/Dep.sol" "lib/Dep.sol" "Dep.sol" "Dep.sol"
    (Json.arr []) (.str "60") (.str "61") "1:2:3" "4:5:6" (Json.obj [])
    (.bool true) rfl (List.mem_cons_self _ _) rfl (List.mem_cons_self _ _)
    rfl rfl rfl rfl rfl rfl rfl rfl rfl rfl rfl rfl rfl
  exact ⟨h.1, h.2.1, h.2.2.1⟩

/-- C7: each adapter's short-path rule tries its root prefixes in a fixed
priority order — `src` before `lib` for Dapp, `contracts` before
`node_modules` for Waffle — stripping the first root that matches the
path's leading component, and leaves the path unchanged when no listed
root matches. -/
theorem c7_short_path_precedence (rest p : List String)
    (hpd : p.head? ≠ some "src" ∧ p.head? ≠ some "lib")
    (hpw : p.head? ≠ some "contracts" ∧ p.head? ≠ some "node_modules") :
    dapp_relative_to_short ("src" :: rest) = rest ∧
    dapp_relative_to_short ("lib" :: rest) = rest ∧
    waffle_relative_to_short ("contracts" :: rest) = rest ∧
    waffle_relative_to_short ("node_modules" :: rest) = rest ∧
    dapp_relative_to_short p = p ∧
    waffle_relative_to_short p = p := by
  refine ⟨by simp [dapp_relative_to_short, stripRoot],
          by simp [dapp_relative_to_short, stripRoot],
          by simp [waffle_relative_to_short, stripRoot],
          by simp [waffle_relative_to_short, stripRoot], ?_, ?_⟩
  · cases p with
    | nil => rfl
    | cons h t =>
      simp only [List.head?] at hpd
      have h1 : h ≠ "src" := fun hh => hpd.1 (by rw [hh])
      have h2 : h ≠ "lib" := fun hh => hpd.2 (by rw [hh])
      simp [dapp_relative_to_short, stripRoot, h1, h2]
  · cases p with
    | nil => rfl
    | cons h t =>
      simp only [List.head?] at hpw
      have h1 : h ≠ "contracts" := fun hh => hpw.1 (by rw [hh])
      have h2 : h ≠ "node_modules" := fun hh => hpw.2 (by rw [hh])
      simp [waffle_relative_to_short, stripRoot, h1, h2]

/-- Witness for C7 at concrete inputs. -/
theorem c7_short_path_precedence_witness :
    dapp_relative_to_short ["src", "A.sol"] = ["A.sol"] ∧
    dapp_relative_to_short ["lib", "A.sol"] = ["A.sol"] ∧
    waffle_relative_to_short ["contracts", "A.sol"] = ["A.sol"] ∧
    waffle_relative_to_short ["node_modules", "A.sol"] = ["A.sol"] ∧
    dapp_relative_to_short ["x", "A.sol"] = ["x", "A.sol"] ∧
    waffle_relative_to_short ["x", "A.sol"] = ["x", "A.sol"] := by
  have h := c7_short_path_precedence ["A.sol"] ["x", "A.sol"]
    (by constructor <;> decide) (by constructor <;> decide)
  exact h

/-- C9: `Dapp.is_dependency` caches the `node_modules`-based result but
returns the `lib`-based one on a cache miss, so on a path whose components
include `lib` but not `node_modules` the first call returns `true` and
every subsequent call returns `false`; symmetrically, on a path with
`node_modules` but not `lib` the first call returns `false` and every
subsequent call returns `true`. -/
theorem c9_dapp_cache_inconsistency (path : String)
    (cache : List (String × Bool)) (hmiss : lookupA cache path = none) :
    ("lib" ∈ pathParts path → "node_modules" ∉ pathParts path →
      (dapp_is_dependency_calls path cache 0).1 = true ∧
      ∀ n, (dapp_is_dependency_calls path cache (n + 1)).1 = false) ∧
    ("node_modules" ∈ pathParts path → "lib" ∉ pathParts path →
      (dapp_is_dependency_calls path cache 0).1 = false ∧
      ∀ n, (dapp_is_dependency_calls path cache (n + 1)).1 = true) := by
  have hret : (dapp_is_dependency cache path).2
      = insertA cache path (decide ("node_modules" ∈ pathParts path)) := by
    simp [dapp_is_dependency, hmiss]
  have hstable : ∀ n, (dapp_is_dependency_calls path cache n).2
      = insertA cache path (decide ("node_modules" ∈ pathParts path)) := by
    intro n
    induction n with
    | zero => exact hret
    | succ n ih =>
      show (dapp_is_dependency (dapp_is_dependency_calls path cache n).2 path).2 = _
      rw [ih]
      simp [dapp_is_dependency, lookupA_insertA_self]
  have hfirst : (dapp_is_dependency_calls path cache 0).1
      = decide ("lib" ∈ pathParts path) := by
    simp [dapp_is_dependency_calls, dapp_is_dependency, hmiss]
  have hlater : ∀ n, (dapp_is_dependency_calls path cache (n + 1)).1
      = decide ("node_modules" ∈ pathParts path) := by
    intro n
    show (dapp_is_dependency (dapp_is_dependency_calls path cache n).2 path).1 = _
    rw [hstable n]
    simp [dapp_is_dependency, lookupA_insertA_self]
  constructor
  · intro hlib hnm
    refine ⟨by simp [hfirst, hlib], fun n => by simp [hlater n, hnm]⟩
  · intro hnm hlib
    refine ⟨by simp [hfirst, hlib], fun n => by simp [hlater n, hnm]⟩

/-- Witness for C9: `lib/Dep.sol` flips from `true` to `false`;
`node_modules/P.sol` flips from `false` to `true`. -/
theorem c9_dapp_cache_inconsistency_witness :
    (dapp_is_dependency_calls "lib/Dep.sol" [] 0).1 = true ∧
    (dapp_is_dependency_calls "lib/Dep.sol" [] 1).1 = false ∧
    (dapp_is_dependency_calls "node_modules/P.sol" [] 0).1 = false ∧
    (dapp_is_dependency_calls "node_modules/P.sol" [] 1).1 = true := by
  have h1 := (c9_dapp_cache_inconsistency "lib/Dep.sol" [] rfl).1
    (by decide) (by decide)
  have h2 := (c9_dapp_cache_inconsistency "node_modules/P.sol" [] rfl).2
    (by decide) (by decide)
  exact ⟨h1.1, h1.2 0, h2.1, h2.2 0⟩

/-- C5 (counterexample): resolving a platform-type tag that is no member
of the enumeration does *not* return a descriptor — the enum conversion on
line 86 of standard.py raises `ValueError` before the registry fallback of
line 88 is reached. -/
theorem c5_adapter_fallback_counterexample :
    resolve_underlying_platform 9999 = .error .valueError := by
  rfl

/-- C5 (amended): for every tag that is a member of the platform-type
enumeration, resolution returns a descriptor without raising; when no
registered adapter carries the tag, the generic Standard descriptor is
returned; a tag outside the enumeration raises `ValueError` instead; and
the Standard descriptor's `is_dependency` returns `false` on every path. -/
theorem c5_adapter_fallback_amended :
    (∀ t : PlatformType, ∃ d, resolve_underlying_platform t.toInt = .ok d) ∧
    (∀ t : PlatformType, (∀ p ∈ get_platforms, p.ptype ≠ t) →
      resolve_underlying_platform t.toInt = .ok standardDescr) ∧
    (∀ tag : Int, PlatformType.ofInt tag = .error .valueError →
      resolve_underlying_platform tag = .error .valueError) ∧
    (∀ path, standard_is_dependency path = false) := by
  refine ⟨fun t => ?_, fun t ht => ?_, fun tag htag => ?_, fun _ => rfl⟩
  · have hok : PlatformType.ofInt t.toInt = .ok t := by cases t <;> rfl
    exact ⟨(get_platforms.find? (fun p => decide (p.ptype = t))).getD standardDescr,
      by simp [resolve_underlying_platform, hok]⟩
  · have hok : PlatformType.ofInt t.toInt = .ok t := by cases t <;> rfl
    have hfind : get_platforms.find? (fun p => decide (p.ptype = t)) = none := by
      rw [List.find?_eq_none]
      intro p hp
      simpa using ht p hp
    simp [resolve_underlying_platform, hok, hfind]
  · simp [resolve_underlying_platform, htag]

/-- Witness for C5 (amended): the `STANDARD` tag is in the enumeration but
matches no registered adapter, so resolution falls back to the Standard
descriptor, whose predicate reports `false` on a concrete path. -/
theorem c5_adapter_fallback_amended_witness :
    resolve_underlying_platform (PlatformType.STANDARD.toInt) = .ok standardDescr ∧
    standard_is_dependency "/repo/node_modules/Dep.sol" = false := by
  refine ⟨c5_adapter_fallback_amended.2.1 .STANDARD ?_,
    c5_adapter_fallback_amended.2.2.2 _⟩
  intro p hp
  simp only [get_platforms, List.mem_cons, List.mem_singleton] at hp
  rcases hp with rfl | rfl | h
  · decide
  · decide
  · simp at h

end CryticCompile
